import Mathlib

/-!
Verification development for the `dice-or-die` game engine
(`src/stores/game.js`, a Pinia store).  The store's state is embedded as an
explicit `GameState` record and every engine action as a function
`GameState → GameState`.  JavaScript's `Math.random()` is modelled as an
oracle `g : ℕ → Frac` giving the successive outputs of the generator (as
exact fractions) together with a call counter `k : ℕ` that every
random-consuming function threads through; `RngValid g` states that every
output lies in `[0, 1)`, which is the only fact the engine relies on.  Animation delays (`setTimeout`,
`await`) and display-only fields (`gameMessage`, `lastGeneralRoll`,
`bossLastRoll`, highlights, animation durations) are dropped: they carry no
game state.
-/

namespace DiceOrDie

/-- An exact nonnegative rational `num / den`, used both for the
`Math.random()` outputs and for the stage money multipliers.  (The values
involved — generator outputs and the multipliers 1, 1.5, 1.75, 2, 2.5 —
are exact rationals; they are kept as explicit fractions rather than
`Rat` so that every definition evaluates inside the kernel.) -/
structure Frac where
  num : ℕ
  den : ℕ
deriving DecidableEq, Repr

/-- `Math.floor(u * n)` for `u = num/den`. -/
def floorMul (u : Frac) (n : ℕ) : ℕ := u.num * n / u.den

/-- `Math.ceil(u * n)` for `u = num/den`. -/
def ceilMul (u : Frac) (n : ℕ) : ℕ := (u.num * n + u.den - 1) / u.den

/-- `u < pnum / pden`. -/
def fracLt (u : Frac) (pnum pden : ℕ) : Prop := u.num * pden < pnum * u.den

instance (u : Frac) (pnum pden : ℕ) : Decidable (fracLt u pnum pden) :=
  inferInstanceAs (Decidable (u.num * pden < pnum * u.den))

/-- The `Math.random()` oracle produces values in `[0, 1)`. -/
def RngValid (g : ℕ → Frac) : Prop := ∀ k, (g k).num < (g k).den

/-- `getRandomInt(min, max)` from the source:
`Math.floor(Math.random() * (max - min + 1)) + min`, with `u` the consumed
`Math.random()` output.  All call sites pass natural numbers, so the
`Math.ceil`/`Math.floor` normalisation of the arguments is the identity. -/
def getRandomInt (u : Frac) (min max : ℕ) : ℕ :=
  floorMul u (max - min + 1) + min

theorem floorMul_lt {u : Frac} {n : ℕ} (h : u.num < u.den) (hn : 0 < n) :
    floorMul u n < n := by
  unfold floorMul
  have hd : 0 < u.den := Nat.lt_of_le_of_lt (Nat.zero_le _) h
  rw [Nat.div_lt_iff_lt_mul hd]
  calc u.num * n < u.den * n := Nat.mul_lt_mul_of_lt_of_le h (le_refl n) hn
    _ = n * u.den := Nat.mul_comm _ _

theorem getRandomInt_le {u : Frac} {min max : ℕ} (h : u.num < u.den)
    (hmm : min ≤ max) : getRandomInt u min max ≤ max := by
  unfold getRandomInt
  have hn : 0 < max - min + 1 := Nat.succ_pos _
  have := floorMul_lt h hn
  omega

theorem le_getRandomInt (u : Frac) (min max : ℕ) : min ≤ getRandomInt u min max := by
  unfold getRandomInt; omega

/-- In-place swap `[array[i], array[j]] = [array[j], array[i]]` used by
`shuffleArray` (the `getD` default is never read: both indices are in
range at every use). -/
def listSwap {α : Type} [Inhabited α] (l : List α) (i j : ℕ) : List α :=
  (l.set i (l.getD j default)).set j (l.getD i default)

/-- Extracting the `m`-th element in front while writing `a` in its place is a
permutation of putting `a` in front. -/
theorem extract_set_perm {α : Type} [Inhabited α] :
    ∀ (t : List α) (m : ℕ) (a : α), m < t.length →
    List.Perm (t.getD m default :: t.set m a) (a :: t) := by
  intro t
  induction t with
  | nil => intro m a h; simp at h
  | cons b u ih =>
    intro m a h
    cases m with
    | zero => simpa using List.Perm.swap a b u
    | succ m =>
      have hm : m < u.length := by simpa using h
      have h1 : (b :: u).getD (m + 1) default :: (b :: u).set (m + 1) a
          = u.getD m default :: b :: u.set m a := by simp
      rw [h1]
      have s1 : List.Perm (u.getD m default :: b :: u.set m a)
          (b :: u.getD m default :: u.set m a) :=
        List.Perm.swap b (u.getD m default) (u.set m a)
      have s2 : List.Perm (b :: u.getD m default :: u.set m a) (b :: a :: u) := (ih m a hm).cons b
      have s3 : List.Perm (b :: a :: u) (a :: b :: u) := List.Perm.swap a b u
      exact (s1.trans s2).trans s3

theorem listSwap_perm {α : Type} [Inhabited α] :
    ∀ (l : List α) (i j : ℕ), i < l.length → j < l.length →
    List.Perm (listSwap l i j) l := by
  intro l
  induction l with
  | nil => intro i j hi; simp at hi
  | cons a t ih =>
    intro i j hi hj
    cases i with
    | zero =>
      cases j with
      | zero => simp [listSwap]
      | succ m =>
        have hm : m < t.length := by simpa using hj
        have : listSwap (a :: t) 0 (m + 1) = t.getD m default :: t.set m a := by
          simp [listSwap]
        rw [this]
        exact extract_set_perm t m a hm
    | succ n =>
      cases j with
      | zero =>
        have hn : n < t.length := by simpa using hi
        have : listSwap (a :: t) (n + 1) 0 = t.getD n default :: t.set n a := by
          simp [listSwap]
        rw [this]
        exact extract_set_perm t n a hn
      | succ m =>
        have hn : n < t.length := by simpa using hi
        have hm : m < t.length := by simpa using hj
        have : listSwap (a :: t) (n + 1) (m + 1) = a :: listSwap t n m := by
          simp [listSwap]
        rw [this]
        exact (ih n m hn hm).cons a

/-- The Fisher–Yates loop of `shuffleArray`: for `i` from `length - 1` down to
`1`, draw `j = Math.floor(Math.random() * (i + 1))` and swap entries `i`,`j`.
The second argument of the recursion is the current loop index `i`. -/
def shuffleAux {α : Type} [Inhabited α] (g : ℕ → Frac) : ℕ → ℕ → List α → List α
  | _, 0, l => l
  | k, i + 1, l =>
    let j := floorMul (g k) (i + 2)
    shuffleAux g (k + 1) i (listSwap l (i + 1) j)

/-- `shuffleArray` from the source (returns the shuffled list and the next
RNG counter: the loop consumes `length - 1` draws). -/
def shuffleArray {α : Type} [Inhabited α] (g : ℕ → Frac) (k : ℕ) (l : List α) :
    List α × ℕ :=
  (shuffleAux g k (l.length - 1) l, k + (l.length - 1))

theorem shuffleAux_perm {α : Type} [Inhabited α] (g : ℕ → Frac) (hg : RngValid g) :
    ∀ (i k : ℕ) (l : List α), i < l.length →
      List.Perm (shuffleAux g k i l) l := by
  intro i
  induction i with
  | zero => intro k l _; simp [shuffleAux]
  | succ n ih =>
    intro k l hi
    have hj : floorMul (g k) (n + 2) < n + 2 :=
      floorMul_lt (hg k) (by omega)
    have hcase : floorMul (g k) (n + 2) < l.length := by omega
    have hperm : List.Perm (listSwap l (n + 1) (floorMul (g k) (n + 2))) l :=
      listSwap_perm l _ _ hi hcase
    have hlen : n < (listSwap l (n + 1) (floorMul (g k) (n + 2))).length := by
      have := hperm.length_eq
      omega
    exact (ih (k + 1) _ hlen).trans hperm

theorem shuffleArray_perm {α : Type} [Inhabited α] (g : ℕ → Frac) (hg : RngValid g)
    (k : ℕ) (l : List α) : List.Perm (shuffleArray g k l).1 l := by
  unfold shuffleArray
  cases l with
  | nil => simp [shuffleAux]
  | cons a t =>
    exact shuffleAux_perm g hg _ k (a :: t) (by simp)

/-- `availableCandidateIds.pop()` performed `n` times, stopping early on an
empty array: returns the popped ids in pop order and the remaining array. -/
def popN : ℕ → List ℕ → List ℕ × List ℕ
  | 0, l => ([], l)
  | n + 1, l =>
    match l.getLast? with
    | Option.none => ([], l)
    | Option.some x => (x :: (popN n l.dropLast).1, (popN n l.dropLast).2)

theorem popN_eq (n : ℕ) : ∀ l : List ℕ,
    popN n l = ((l.drop (l.length - n)).reverse, l.take (l.length - n)) := by
  induction n with
  | zero => intro l; simp [popN]
  | succ m ih =>
    intro l
    cases hl : l.getLast? with
    | none =>
      have : l = [] := by
        cases l with
        | nil => rfl
        | cons a t => simp [List.getLast?_concat, List.getLast?_eq_getLast] at hl
      subst this; simp [popN]
    | some x =>
      have hne : l ≠ [] := by
        intro h; subst h; simp at hl
      have hdecomp : l.dropLast ++ [x] = l := List.dropLast_append_getLast? x hl
      have hlen : l.length = l.dropLast.length + 1 := by
        rw [← hdecomp]; simp
      have hpop : popN (m + 1) l = (x :: (popN m l.dropLast).1, (popN m l.dropLast).2) := by
        simp [popN, hl]
      rw [hpop, ih l.dropLast]
      have harg : l.length - (m + 1) = l.dropLast.length - m := by omega
      have hfst : x :: (l.dropLast.drop (l.dropLast.length - m)).reverse
          = (l.drop (l.length - (m + 1))).reverse := by
        rw [harg]
        have hd := @List.drop_append_of_le_length _ l.dropLast [x]
          (l.dropLast.length - m) (by omega)
        rw [hdecomp] at hd
        rw [hd, List.reverse_append]
        simp
      have hsnd : l.dropLast.take (l.dropLast.length - m) = l.take (l.length - (m + 1)) := by
        rw [List.dropLast_eq_take, List.take_take, List.length_take]
        congr 1
        omega
      rw [Prod.mk.injEq]
      exact ⟨hfst, hsnd⟩

theorem popN_fst_length (n : ℕ) (l : List ℕ) :
    (popN n l).1.length = min n l.length := by
  rw [popN_eq]; simp; omega

theorem popN_snd (n : ℕ) (l : List ℕ) : (popN n l).2 = l.take (l.length - n) := by
  rw [popN_eq]

/-! ## Data model -/

/-- `DICE_TYPES`: die variants.  The source stores a die as
`{type, value?}` with `type` one of the `DICE_TYPES` strings and `value`
present exactly for the `Fixed` and `Reverse Fixed` kinds (every die the
code constructs carries a value for those kinds), so a tagged variant is
the faithful value-level picture. -/
inductive Die
  | normal
  | fixed (v : ℕ)
  | d20
  | reverseFixed (v : ℕ)
  | reverseRandom
deriving DecidableEq, Repr, Inhabited

/-- The `DICE_TYPES` display string of a die kind. -/
def dieTypeName : Die → String
  | Die.normal => "Random"
  | Die.fixed _ => "Fixed"
  | Die.d20 => "20"
  | Die.reverseFixed _ => "Reverse Fixed"
  | Die.reverseRandom => "Reverse Random"

/-- `square.baseType`. -/
inductive BaseType
  | normal
  | start
  | corner_bl
  | corner_br
  | corner_tr
deriving DecidableEq, Repr, Inhabited

/-- `square.currentEffectType`. -/
inductive EffectType
  | none
  | temp_bad_lap
  | huge_money
  | normal_money
  | choice_dice_money
  | choice_pick_die
deriving DecidableEq, Repr, Inhabited

/-- `square.effectDetails`: `{penalty}` for bad squares, `{amount}` for money
squares, `null` otherwise (modelled through `Option EffectDetails`). -/
inductive EffectDetails
  | penalty (p : ℤ)
  | amount (a : ℤ)
deriving DecidableEq, Repr

structure Square where
  id : ℕ
  baseType : BaseType
  currentEffectType : EffectType
  isTempBad : Bool
  effectDetails : Option EffectDetails
deriving DecidableEq, Repr, Inhabited

structure BossDefeatCondition where
  diceThrows : ℕ
  hp : ℕ
  bribeCost : ℕ
deriving DecidableEq, Repr

structure StageConfig where
  rows : ℕ
  cols : ℕ
  moneyMultiplier : Frac
  lapsToComplete : ℕ
  minBadSquares : ℕ
  maxBadSquares : ℕ
  minChoiceDiceMoneySquares : ℕ
  maxChoiceDiceMoneySquares : ℕ
  minChoicePickDieSquares : ℕ
  maxChoicePickDieSquares : ℕ
  bossName : String
  bossImage : String
  bossDefeatCondition : BossDefeatCondition
deriving DecidableEq, Repr

/-- The static `STAGE_CONFIGS` table (keys 1..5). -/
def STAGE_CONFIGS : ℕ → Option StageConfig
  | 1 => Option.some
      { rows := 6, cols := 6, moneyMultiplier := { num := 1, den := 1 }, lapsToComplete := 3
        minBadSquares := 1, maxBadSquares := 2
        minChoiceDiceMoneySquares := 2, maxChoiceDiceMoneySquares := 4
        minChoicePickDieSquares := 2, maxChoicePickDieSquares := 4
        bossName := "Recaudador de Impuestos", bossImage := "tax_collector.png"
        bossDefeatCondition := { diceThrows := 3, hp := 15, bribeCost := 40 } }
  | 2 => Option.some
      { rows := 9, cols := 9, moneyMultiplier := { num := 3, den := 2 }, lapsToComplete := 3
        minBadSquares := 2, maxBadSquares := 4
        minChoiceDiceMoneySquares := 4, maxChoiceDiceMoneySquares := 8
        minChoicePickDieSquares := 4, maxChoicePickDieSquares := 8
        bossName := "Goblin Codicioso", bossImage := "greedy_goblin_king.webp"
        bossDefeatCondition := { diceThrows := 3, hp := 30, bribeCost := 80 } }
  | 3 => Option.some
      { rows := 9, cols := 9, moneyMultiplier := { num := 7, den := 4 }, lapsToComplete := 3
        minBadSquares := 2, maxBadSquares := 4
        minChoiceDiceMoneySquares := 4, maxChoiceDiceMoneySquares := 8
        minChoicePickDieSquares := 4, maxChoicePickDieSquares := 8
        bossName := "Comandante Orco", bossImage := "orc_general.png"
        bossDefeatCondition := { diceThrows := 3, hp := 40, bribeCost := 70 } }
  | 4 => Option.some
      { rows := 10, cols := 14, moneyMultiplier := { num := 2, den := 1 }, lapsToComplete := 3
        minBadSquares := 4, maxBadSquares := 8
        minChoiceDiceMoneySquares := 8, maxChoiceDiceMoneySquares := 16
        minChoicePickDieSquares := 8, maxChoicePickDieSquares := 16
        bossName := "Dragon Tesorero", bossImage := "dragon_treasurer.png"
        bossDefeatCondition := { diceThrows := 3, hp := 50, bribeCost := 100 } }
  | 5 => Option.some
      { rows := 10, cols := 14, moneyMultiplier := { num := 5, den := 2 }, lapsToComplete := 3
        minBadSquares := 4, maxBadSquares := 8
        minChoiceDiceMoneySquares := 8, maxChoiceDiceMoneySquares := 16
        minChoicePickDieSquares := 8, maxChoicePickDieSquares := 16
        bossName := "Gato Dios Oscuro", bossImage := "dark_godcat.webp"
        bossDefeatCondition := { diceThrows := 3, hp := 70, bribeCost := 200 } }
  | _ => Option.none

/-- `MAX_RESERVED_DICE`. -/
def MAX_RESERVED_DICE : ℕ := 15

/-- `MAX_STAGES = Object.keys(STAGE_CONFIGS).length`. -/
def MAX_STAGES : ℕ := 5

/-- `HUGE_MONEY_AMOUNT_BASE`. -/
def HUGE_MONEY_AMOUNT_BASE : ℕ := 10

/-- `this.currentBoss`: spread of the stage's `bossDefeatCondition` plus
display metadata. -/
structure Boss where
  diceThrows : ℕ
  hp : ℕ
  bribeCost : ℕ
  image : String
  name : String
deriving DecidableEq, Repr

inductive ChoiceAction
  | get_money_bonus
  | get_chosen_die
deriving DecidableEq, Repr

/-- `option.value` of a choice option: a money bonus or a die. -/
inductive ChoiceValue
  | money (v : ℕ)
  | die (d : Die)
deriving DecidableEq, Repr

structure ChoiceOption where
  text : String
  action : ChoiceAction
  value : ChoiceValue
deriving DecidableEq, Repr

/-- `this.choiceDetails`. -/
structure ChoiceDetails where
  ctype : String
  message : String
  options : List ChoiceOption
deriving DecidableEq, Repr

/-- The store state.  Display-only fields (messages, animation timers,
highlights, `lastDiceRoll`, `bossLastRoll`, `lastGeneralRoll`,
`assetsLoaded`, `animationSpeedMultiplier`) are omitted; everything the
game rules read or write is kept. -/
structure GameState where
  boardRows : ℕ
  boardCols : ℕ
  playerPosition : ℕ
  playerMoney : ℤ
  playerLap : ℕ
  playerStage : ℕ
  reservedDice : List Die
  maxDiceInBag : ℕ
  boardSquares : List Square
  isGameOver : Bool
  gamePhase : String
  choiceDetails : Option ChoiceDetails
  isAnimating : Bool
  lastPlayerPositionBeforeThisMove : ℕ
  currentBoss : Option Boss
  currentDiceThrows : List ℕ
  remainingBossRolls : ℤ
  currentBossHP : Option ℤ
  currentBossMaxHP : Option ℤ
  totalRolls : ℕ
  diceObtained : ℕ
  bossesDefeated : ℕ
  perfectBossDefeats : ℕ
  bribesBosses : ℕ
  showSummaryModal : Bool
  currentStageConfig : StageConfig
deriving DecidableEq, Repr

/-! ## Getters -/

/-- Getter `totalBoardSquares` (the `!config` test never fires: the store
always holds a stage config; `!config.rows`/`!config.cols` fire exactly
when the value is `0`). -/
def totalBoardSquares (s : GameState) : ℕ :=
  let config := s.currentStageConfig
  if config.rows = 0 ∨ config.cols = 0 then 0
  else if config.rows ≤ 1 ∨ config.cols ≤ 1 then config.rows * config.cols
  else 2 * config.rows + 2 * config.cols - 4

/-- Getter `cornerSquareIds`. -/
def cornerSquareIds (s : GameState) : List ℕ :=
  let config := s.currentStageConfig
  if config.rows = 0 ∨ config.cols = 0 ∨ config.rows ≤ 1 ∨ config.cols ≤ 1 then []
  else
    [0, config.rows - 1, config.rows - 1 + (config.cols - 1),
     config.rows - 1 + (config.cols - 1) + (config.rows - 1)]

/-- Getter `bottomRightCornerId` (`-1` when the board is degenerate). -/
def bottomRightCornerId (s : GameState) : ℤ :=
  let config := s.currentStageConfig
  if config.rows = 0 ∨ config.cols = 0 ∨ config.rows ≤ 1 ∨ config.cols ≤ 1 then -1
  else (config.rows : ℤ) - 1 + ((config.cols : ℤ) - 1)

/-- Getter `candidateSquareIds`: normal squares off the corners. -/
def candidateSquareIds (s : GameState) : List ℕ :=
  (s.boardSquares.filter
    (fun sq => sq.baseType = BaseType.normal ∧ sq.id ∉ cornerSquareIds s)).map
    (fun sq => sq.id)

/-- Getter `currentHugeMoneyValue = HUGE_MONEY_AMOUNT_BASE * playerStage`. -/
def currentHugeMoneyValue (s : GameState) : ℕ :=
  HUGE_MONEY_AMOUNT_BASE * s.playerStage

/-! ## Board generation and lap effects -/

/-- `generateBoardLayout`: fresh squares `0..totalSquares-1` with corner base
types (the `corners[i]` accesses on a degenerate board read `undefined`,
which matches no index, so every square comes out `normal`). -/
def generateBoardLayout (s : GameState) : GameState :=
  let totalSquares := totalBoardSquares s
  let corners := cornerSquareIds s
  let brCornerId := bottomRightCornerId s
  let newLayout := (List.range totalSquares).map (fun i =>
    let baseType :=
      if corners.get? 0 = Option.some i then BaseType.start
      else if corners.get? 1 = Option.some i then BaseType.corner_bl
      else if (i : ℤ) = brCornerId then BaseType.corner_br
      else if corners.get? 3 = Option.some i then BaseType.corner_tr
      else BaseType.normal
    { id := i, baseType := baseType, currentEffectType := EffectType.none,
      isTempBad := false, effectDetails := Option.none })
  { s with boardSquares := newLayout }

/-- The per-square reset at the top of `setupLapEffects`: `isTempBad` is
cleared everywhere; only `normal` squares get their dynamic effect reset. -/
def resetSquare (sq : Square) : Square :=
  if sq.baseType = BaseType.normal then
    { sq with isTempBad := false, currentEffectType := EffectType.none,
              effectDetails := Option.none }
  else { sq with isTempBad := false }

/-- Update the square with the given id (the source resolves the id through
`squareIdToIndexMap` and mutates `boardSquares` at that index; board ids are
the distinct indices `0..n-1`, so updating by id is the same operation). -/
def setSquareEffect (board : List Square) (id : ℕ) (f : Square → Square) :
    List Square :=
  board.map (fun sq => if sq.id = id then f sq else sq)

/-- The bad-square assignment loop: each popped id gets `temp_bad_lap` with a
fresh penalty draw `getRandomInt(5, 15) * playerStage`. -/
def assignBadSquares (g : ℕ → Frac) (stage : ℕ) :
    ℕ → List ℕ → List Square → List Square × ℕ
  | k, [], board => (board, k)
  | k, id :: rest, board =>
    let pen : ℕ := getRandomInt (g k) 5 15 * stage
    assignBadSquares g stage (k + 1) rest
      (setSquareEffect board id (fun sq =>
        { sq with isTempBad := true,
                  currentEffectType := EffectType.temp_bad_lap,
                  effectDetails := Option.some (EffectDetails.penalty (pen : ℤ)) }))

/-- The choice-square assignment loops (they draw no randomness per square). -/
def assignEffect (eff : EffectType) : List ℕ → List Square → List Square
  | [], board => board
  | id :: rest, board =>
    assignEffect eff rest
      (setSquareEffect board id (fun sq => { sq with currentEffectType := eff }))

/-- The trailing `forEach` of `setupLapEffects`: every leftover candidate
becomes `huge_money` with probability `0.15` (amount `currentHugeMoneyValue`)
and otherwise `normal_money` with amount
`Math.floor(getRandomInt(1, 3) * moneyMultiplier)`. -/
def assignMoneySquares (g : ℕ → Frac) (hugeVal : ℤ) (multiplier : Frac) :
    ℕ → List ℕ → List Square → List Square × ℕ
  | k, [], board => (board, k)
  | k, id :: rest, board =>
    if fracLt (g k) 15 100 then
      assignMoneySquares g hugeVal multiplier (k + 1) rest
        (setSquareEffect board id (fun sq =>
          { sq with currentEffectType := EffectType.huge_money,
                    effectDetails := Option.some (EffectDetails.amount hugeVal) }))
    else
      assignMoneySquares g hugeVal multiplier (k + 2) rest
        (setSquareEffect board id (fun sq =>
          { sq with currentEffectType := EffectType.normal_money,
                    effectDetails := Option.some (EffectDetails.amount
                      ((getRandomInt (g (k + 1)) 1 3 * multiplier.num
                        / multiplier.den : ℕ) : ℤ)) }))

/-- `setupLapEffects`: reset, shuffle the candidates, pop the drawn quota of
bad / dice-vs-money / pick-a-die squares, classify the leftovers as money
squares. -/
def setupLapEffects (g : ℕ → Frac) (k : ℕ) (s : GameState) : GameState × ℕ :=
  let config := s.currentStageConfig
  let s0 := { s with boardSquares := s.boardSquares.map resetSquare }
  let (shuffled, k1) := shuffleArray g k (candidateSquareIds s0)
  let numBadSquares := getRandomInt (g k1) config.minBadSquares config.maxBadSquares
  let (badIds, rem1) := popN numBadSquares shuffled
  let (board1, k2) := assignBadSquares g s.playerStage (k1 + 1) badIds s0.boardSquares
  let numChoiceDiceMoney :=
    getRandomInt (g k2) config.minChoiceDiceMoneySquares config.maxChoiceDiceMoneySquares
  let (dmIds, rem2) := popN numChoiceDiceMoney rem1
  let board2 := assignEffect EffectType.choice_dice_money dmIds board1
  let numChoicePickDie :=
    getRandomInt (g (k2 + 1)) config.minChoicePickDieSquares config.maxChoicePickDieSquares
  let (pdIds, rem3) := popN numChoicePickDie rem2
  let board3 := assignEffect EffectType.choice_pick_die pdIds board2
  let (board4, k3) :=
    assignMoneySquares g (currentHugeMoneyValue s : ℤ) config.moneyMultiplier
      (k2 + 2) rem3 board3
  ({ s with boardSquares := board4 }, k3)

/-- `setupStage` (the `!config` abort can never fire: `currentStageConfig` is
never null in the store; `lastDiceRoll` and the write to the otherwise unused
`currentStageBoss` field are display-only). -/
def setupStage (g : ℕ → Frac) (k : ℕ) (s : GameState) : GameState × ℕ :=
  let config := s.currentStageConfig
  let s1 := { s with boardRows := config.rows, boardCols := config.cols,
                     playerLap := 1, playerPosition := 0,
                     lastPlayerPositionBeforeThisMove := 0,
                     choiceDetails := Option.none }
  let s2 := generateBoardLayout s1
  let (s3, k1) := setupLapEffects g k s2
  ({ s3 with gamePhase := "rolling", isAnimating := false }, k1)

/-- The trailing phase normalisation of `initializeGame`. -/
def initializeGameFinish (r : GameState × ℕ) : GameState × ℕ :=
  (if r.1.gamePhase ≠ "awaiting_choice" then { r.1 with gamePhase := "rolling" }
   else r.1, r.2)

/-- `initializeGame`. -/
def initializeGame (g : ℕ → Frac) (k : ℕ) (s : GameState) : GameState × ℕ :=
  initializeGameFinish
    (setupStage g k
      { s with playerStage := 1, isGameOver := false, isAnimating := false,
               reservedDice := [], playerMoney := 0 })

/-- `resetGame`. -/
def resetGame (g : ℕ → Frac) (k : ℕ) (s : GameState) : GameState × ℕ :=
  let s1 := { s with playerMoney := 0, playerLap := 0, playerStage := 1,
                     totalRolls := 0, diceObtained := 0, bossesDefeated := 0,
                     perfectBossDefeats := 0, bribesBosses := 0,
                     reservedDice := [], currentDiceThrows := [],
                     remainingBossRolls := 0, currentBoss := Option.none,
                     gamePhase := "rolling", isGameOver := false,
                     showSummaryModal := false,
                     currentStageConfig := (STAGE_CONFIGS 1).getD s.currentStageConfig }
  setupStage g k s1

/-- `addReservedDie`: capacity-gated push (silent drop when the bag is
full). -/
def addReservedDie (d : Die) (s : GameState) : GameState :=
  if s.reservedDice.length < s.maxDiceInBag then
    { s with reservedDice := s.reservedDice ++ [d],
             diceObtained := s.diceObtained + 1 }
  else s

/-! ## Square landing and choice resolution -/

/-- The `" (value)"` suffix used when printing a die that carries a value. -/
def dieValueSuffix : Die → String
  | Die.fixed v => " (" ++ toString v ++ ")"
  | Die.reverseFixed v => " (" ++ toString v ++ ")"
  | _ => ""

/-- Signature used by the pick-a-die dedup: the type string, extended with
the value for the `Fixed` and `Reverse Fixed` kinds. -/
def dieSignature (d : Die) : String :=
  match d with
  | Die.fixed v => dieTypeName d ++ "_" ++ toString v
  | Die.reverseFixed v => dieTypeName d ++ "_" ++ toString v
  | _ => dieTypeName d

def pickDieOption (d : Die) : ChoiceOption :=
  { text := "Die: " ++ dieTypeName d ++ dieValueSuffix d,
    action := ChoiceAction.get_chosen_die,
    value := ChoiceValue.die d }

/-- The pick-a-die selection loop: walk the shuffled pool, keep the first
`numOffer` dice with pairwise distinct signatures. -/
def buildPickDieOpts (numOffer : ℕ) :
    List Die → List ChoiceOption → List String → List ChoiceOption
  | [], opts, _ => opts
  | d :: rest, opts, sigs =>
    if opts.length ≥ numOffer then opts
    else if dieSignature d ∈ sigs then buildPickDieOpts numOffer rest opts sigs
    else buildPickDieOpts numOffer rest (opts ++ [pickDieOption d])
        (sigs ++ [dieSignature d])

/-- `square.effectDetails?.penalty` as a JS-truthy value (`undefined` and `0`
are both falsy and trigger the `||` fallback). -/
def penaltyOf (sq : Square) : Option ℤ :=
  match sq.effectDetails with
  | Option.some (EffectDetails.penalty p) =>
    if p = 0 then Option.none else Option.some p
  | _ => Option.none

/-- `square.effectDetails?.amount` as a JS-truthy value. -/
def amountOf (sq : Square) : Option ℤ :=
  match sq.effectDetails with
  | Option.some (EffectDetails.amount a) =>
    if a = 0 then Option.none else Option.some a
  | _ => Option.none

/-- Clearing a square's dynamic effect (`currentEffectType = "none"`,
`effectDetails = null`). -/
def clearSquareEffect (sq : Square) : Square :=
  { sq with currentEffectType := EffectType.none, effectDetails := Option.none }

/-- The unconditional bottom-right-corner deduction of
`handleSquareLanding`. -/
def cornerTax (square : Square) (s : GameState) : GameState :=
  if square.baseType = BaseType.corner_br then
    { s with playerMoney := s.playerMoney - 20 }
  else s

/-- The `currentEffectType` dispatch of `handleSquareLanding`, applied to
the state `s1` that already received the corner tax (the source reads and
mutates the one live store throughout). -/
def landingDispatch (g : ℕ → Frac) (k : ℕ) (square : Square) (s1 : GameState) :
    GameState × ℕ :=
  match square.currentEffectType with
  | EffectType.temp_bad_lap =>
    match penaltyOf square with
    | Option.some p => ({ s1 with playerMoney := s1.playerMoney - p }, k)
    | Option.none =>
      let p : ℕ := getRandomInt (g k) 5 15 * s1.playerStage
      ({ s1 with playerMoney := s1.playerMoney - (p : ℤ) }, k + 1)
  | EffectType.huge_money =>
    let hugeGain := (amountOf square).getD (currentHugeMoneyValue s1 : ℤ)
    ({ s1 with playerMoney := s1.playerMoney + hugeGain,
               boardSquares := setSquareEffect s1.boardSquares square.id
                 clearSquareEffect }, k)
  | EffectType.choice_dice_money =>
    let offered :=
      if fracLt (g k) 3 5 then (Die.fixed (getRandomInt (g (k + 1)) 2 6), k + 2)
      else if fracLt (g k) 17 20 then (Die.reverseRandom, k + 1)
      else (Die.d20, k + 1)
    ({ s1 with gamePhase := "awaiting_choice",
               choiceDetails := Option.some
                 { ctype := "dice_vs_money", message := "Choose reward:",
                   options :=
                     [{ text := "Get $" ++ toString (10 * s1.playerStage),
                        action := ChoiceAction.get_money_bonus,
                        value := ChoiceValue.money (10 * s1.playerStage) },
                      { text := "Get " ++ dieTypeName offered.1 ++
                          dieValueSuffix offered.1 ++ " Die",
                        action := ChoiceAction.get_chosen_die,
                        value := ChoiceValue.die offered.1 }] } }, offered.2)
  | EffectType.choice_pick_die =>
    let dPool : List Die :=
      [Die.fixed 1, Die.fixed 2, Die.fixed 3, Die.fixed 4, Die.fixed 5,
       Die.fixed 6, Die.d20, Die.reverseRandom,
       Die.reverseFixed (getRandomInt (g k) 1 6), Die.normal]
    let r := shuffleArray g (k + 1) dPool
    let numOffer := getRandomInt (g r.2) 3 4
    let finalOpts := buildPickDieOpts numOffer r.1 [] []
    ({ s1 with gamePhase := "awaiting_choice",
               choiceDetails := Option.some
                 { ctype := "pick_a_die",
                   message := "Choose a die (" ++ toString finalOpts.length ++
                     " options):",
                   options := finalOpts } }, r.2 + 1)
  | _ => (s1, k)

/-- `handleSquareLanding`: abort guards, bounds check, bottom-right corner
tax, then the `currentEffectType` dispatch. -/
def handleSquareLanding (g : ℕ → Frac) (k : ℕ) (s : GameState) : GameState × ℕ :=
  if s.isGameOver = true ∨ (s.isAnimating = true ∧ s.gamePhase ≠ "landed") then
    (s, k)
  else if s.playerPosition ≥ s.boardSquares.length then
    ({ s with gamePhase := "rolling", isAnimating := false }, k)
  else
    landingDispatch g k (s.boardSquares.getD s.playerPosition default)
      (cornerTax (s.boardSquares.getD s.playerPosition default) s)

/-- `playerMakesChoice` (no randomness consumed). -/
def playerMakesChoice (chosenOption : ChoiceOption) (s : GameState) : GameState :=
  if s.gamePhase ≠ "awaiting_choice" ∨ s.choiceDetails = Option.none then s
  else
    let s1 := { s with isAnimating := true }
    let oSI := s.playerPosition
    let s2 :=
      match chosenOption.action, chosenOption.value with
      | ChoiceAction.get_money_bonus, ChoiceValue.money v =>
        { s1 with playerMoney := s1.playerMoney + v }
      | ChoiceAction.get_chosen_die, ChoiceValue.die d => addReservedDie d s1
      | _, _ => s1
    let cleared := s2.boardSquares.set oSI
      (clearSquareEffect (s2.boardSquares.getD oSI default))
    let s3 :=
      if oSI < s2.boardSquares.length then { s2 with boardSquares := cleared }
      else s2
    { s3 with choiceDetails := Option.none, gamePhase := "rolling",
              isAnimating := false }

/-! ## Boss encounter engine -/

/-- `handleBossEncounter`: builds `currentBoss` from
`STAGE_CONFIGS[playerStage]` and initialises the fight state.  A missing
config would make the source throw before touching the store; the model
returns the state unchanged in that (unreachable in play) case. -/
def handleBossEncounter (s : GameState) : GameState :=
  match STAGE_CONFIGS s.playerStage with
  | Option.none => s
  | Option.some stageConfig =>
    let boss : Boss :=
      { diceThrows := stageConfig.bossDefeatCondition.diceThrows,
        hp := stageConfig.bossDefeatCondition.hp,
        bribeCost := stageConfig.bossDefeatCondition.bribeCost,
        image := stageConfig.bossImage, name := stageConfig.bossName }
    { s with currentBoss := Option.some boss,
             remainingBossRolls := (boss.diceThrows : ℤ),
             currentBossHP := Option.some (boss.hp : ℤ),
             currentBossMaxHP := Option.some (boss.hp : ℤ),
             currentDiceThrows := [],
             gamePhase := "boss_encounter",
             isAnimating := false }

/-- `applyBossDamage`. -/
def applyBossDamage (totalDiceValue : ℕ) (s : GameState) : GameState :=
  match s.currentBossHP with
  | Option.none => s
  | Option.some hp =>
    { s with currentBossHP := Option.some (hp - (totalDiceValue : ℤ)) }

/-- `failBossFight`. -/
def failBossFight (s : GameState) : GameState :=
  { s with isGameOver := true, gamePhase := "game_lost", showSummaryModal := true }

/-- The victory bookkeeping at the top of `defeatBoss` when the boss was
beaten by damage: increment `bossesDefeated`, and `perfectBossDefeats` when
the logged damage equals the boss's hp exactly.  The source reads
`currentBoss.hp` here and would throw on a null boss (unreachable in play);
that case is `none`. -/
def creditDefeat (s : GameState) : Option GameState :=
  match s.currentBoss with
  | Option.none => Option.none
  | Option.some boss =>
    Option.some
      (if s.currentDiceThrows.sum = boss.hp then
        { s with bossesDefeated := s.bossesDefeated + 1,
                 perfectBossDefeats := s.perfectBossDefeats + 1 }
      else { s with bossesDefeated := s.bossesDefeated + 1 })

/-- The stage-advance half of `defeatBoss`: bump `playerStage`; after the
last stage end the run with the summary; otherwise reset the fight state,
install the next stage's config and set the stage up. -/
def stageAdvance (g : ℕ → Frac) (k : ℕ) (s1 : GameState) : GameState × ℕ :=
  if s1.playerStage + 1 > MAX_STAGES then
    ({ s1 with playerStage := s1.playerStage + 1, isGameOver := true,
               showSummaryModal := true }, k)
  else
    match STAGE_CONFIGS (s1.playerStage + 1) with
    | Option.none =>
      ({ s1 with playerStage := s1.playerStage + 1, playerLap := 0,
                 currentDiceThrows := [], remainingBossRolls := 0,
                 gamePhase := "rolling" }, k)
    | Option.some nextStageConfig =>
      setupStage g k
        { s1 with playerStage := s1.playerStage + 1, playerLap := 0,
                  currentDiceThrows := [], remainingBossRolls := 0,
                  gamePhase := "rolling",
                  currentStageConfig := nextStageConfig }

/-- `defeatBoss(wasBribed)`: credit the damage victory unless bribed, then
advance the stage. -/
def defeatBoss (g : ℕ → Frac) (k : ℕ) (wasBribed : Bool) (s : GameState) :
    GameState × ℕ :=
  if wasBribed then stageAdvance g k s
  else
    match creditDefeat s with
    | Option.none => (s, k)
    | Option.some s1 => stageAdvance g k s1

/-- `payToDefeatBoss` (the insufficient-money branch only raises an
`alert`). -/
def payToDefeatBoss (g : ℕ → Frac) (k : ℕ) (s : GameState) : GameState × ℕ :=
  match s.currentBoss with
  | Option.none => (s, k)
  | Option.some boss =>
    if s.playerMoney ≥ (boss.bribeCost : ℤ) then
      defeatBoss g k true
        { s with playerMoney := s.playerMoney - (boss.bribeCost : ℤ),
                 bribesBosses := s.bribesBosses + 1 }
    else (s, k)

/-- The roll produced by the `switch (die.type)` of `rollDiceForBoss`,
together with the advanced RNG counter.  Reverse dice contribute their
magnitude (the boss fight ignores direction). -/
def bossRoll (g : ℕ → Frac) (k : ℕ) : Die → ℕ × ℕ
  | Die.d20 => (getRandomInt (g k) 1 20, k + 1)
  | Die.fixed v => (v, k)
  | Die.reverseFixed v => (v, k)
  | Die.reverseRandom => (getRandomInt (g k) 1 6, k + 1)
  | Die.normal => (getRandomInt (g k) 1 6, k + 1)

/-- The end of a bag-die boss throw: victory check first, then the defeat
check (`remainingBossRolls == 0` and empty bag). -/
def bossBagResolve (g : ℕ → Frac) (k1 : ℕ) (boss : Boss) (s2 : GameState) :
    GameState × ℕ :=
  if s2.currentDiceThrows.sum ≥ boss.hp then defeatBoss g k1 false s2
  else if s2.gamePhase = "boss_encounter" ∧ s2.remainingBossRolls = 0 ∧
      s2.reservedDice = [] then
    (failBossFight s2, k1)
  else (s2, k1)

/-- `rollDiceForBoss(die)`: throw a (bag) die against the boss.  The die is
removed from the bag when present (`indexOf`/`splice`; the UI passes the bag
entry itself, modelled as first-occurrence removal), the roll is logged and
applied as damage, then the victory check runs before the defeat check.
Note: the dice-throw budget `remainingBossRolls` is neither checked nor
decremented here.  A null `currentBoss` would make the source throw at the
`currentBoss.hp` read; the model returns the state unchanged then. -/
def rollDiceForBoss (g : ℕ → Frac) (k : ℕ) (die : Die) (s : GameState) :
    GameState × ℕ :=
  if s.gamePhase ≠ "boss_encounter" then (s, k)
  else
    match s.currentBoss with
    | Option.none => (s, k)
    | Option.some boss =>
      bossBagResolve g (bossRoll g k die).2 boss
        (applyBossDamage (bossRoll g k die).1
          { s with reservedDice := s.reservedDice.erase die,
                   currentDiceThrows := s.currentDiceThrows ++ [(bossRoll g k die).1],
                   totalRolls := s.totalRolls + 1 })

/-- `advanceStage` (defined in the store but never invoked by any caller in
the repository; `defeatBoss` performs its own stage advancement). -/
def advanceStage (g : ℕ → Frac) (k : ℕ) (s : GameState) : GameState × ℕ :=
  if s.playerStage + 1 > MAX_STAGES then
    ({ s with playerStage := s.playerStage + 1, isGameOver := true,
              gamePhase := "game_won", isAnimating := false }, k)
  else setupStage g k { s with playerStage := s.playerStage + 1 }

/-! ## Movement and rolling -/

/-- How the `for` loop of `movePlayer` ended: ran all steps (or hit the
`isGameOver` break), broke on landing on square 0 (non-final lap), or
returned from inside the loop into the boss encounter. -/
inductive LoopExit
  | completed
  | brokeAtStart
  | bossReturn
deriving DecidableEq, Repr

/-- The step count of the die-resolution `switch` in `rollDice`
(`die.value || 1` defaults a missing/zero value to 1), with the advanced
RNG counter. -/
def stepsOf (g : ℕ → Frac) (k : ℕ) : Die → ℤ × ℕ
  | Die.normal => ((getRandomInt (g k) 1 6 : ℕ), k + 1)
  | Die.fixed v => (((if v = 0 then 1 else v : ℕ) : ℤ), k)
  | Die.d20 => ((getRandomInt (g k) 1 20 : ℕ), k + 1)
  | Die.reverseFixed v => (-((if v = 0 then 1 else v : ℕ) : ℤ), k)
  | Die.reverseRandom => (-((getRandomInt (g k) 1 6 : ℕ) : ℤ), k + 1)

/-- The per-step `normal_money` credit of the `for` loop of `movePlayer`
(`currentSq && currentSq.currentEffectType === "normal_money" &&
currentSq.effectDetails?.amount`). -/
def stepCredit (s : GameState) : GameState :=
  if s.playerPosition < s.boardSquares.length ∧
      (s.boardSquares.getD s.playerPosition default).currentEffectType
        = EffectType.normal_money ∧
      (amountOf (s.boardSquares.getD s.playerPosition default)).isSome then
    { s with playerMoney := s.playerMoney +
        (amountOf (s.boardSquares.getD s.playerPosition default)).getD 0 }
  else s

/-- Attach a loop-exit tag to a `(state, rng)` pair. -/
def withExit (r : GameState × ℕ) (e : LoopExit) : GameState × ℕ × LoopExit :=
  (r.1, r.2, e)

/-- The `for` loop of `movePlayer`.  Forward steps move `+1 mod total`;
landing on square 0 increments the lap and either enters the boss
encounter (final lap: `return`) or reassigns lap effects and breaks;
any other forward step credits a `normal_money` square's amount.
Reverse steps only move `-1 mod total`. -/
def moveLoop (g : ℕ → Frac) (forward : Bool) :
    ℕ → ℕ → GameState → GameState × ℕ × LoopExit
  | k, 0, s => (s, k, LoopExit.completed)
  | k, n + 1, s =>
    if s.isGameOver = true then (s, k, LoopExit.completed)
    else if forward then
      if (s.playerPosition + 1) % totalBoardSquares s = 0 then
        if s.playerLap + 1 = s.currentStageConfig.lapsToComplete then
          (handleBossEncounter
            { s with playerPosition := (s.playerPosition + 1) % totalBoardSquares s,
                     playerLap := s.playerLap + 1,
                     gamePhase := "boss_encounter", isAnimating := false },
           k, LoopExit.bossReturn)
        else
          withExit
            (setupLapEffects g k
              { s with playerPosition := (s.playerPosition + 1) % totalBoardSquares s,
                       playerLap := s.playerLap + 1 })
            LoopExit.brokeAtStart
      else
        moveLoop g forward k n
          (stepCredit
            { s with playerPosition := (s.playerPosition + 1) % totalBoardSquares s })
    else
      moveLoop g forward k n
        { s with playerPosition :=
            (s.playerPosition + totalBoardSquares s - 1) % totalBoardSquares s }

/-- The end-of-turn phase bookkeeping at the bottom of `movePlayer`. -/
def movePlayerEnd (r : GameState × ℕ) : GameState × ℕ :=
  if r.1.gamePhase = "awaiting_choice" then ({ r.1 with isAnimating := false }, r.2)
  else if r.1.gamePhase ≠ "boss_encounter_intro" ∧ r.1.isGameOver = false then
    ({ r.1 with gamePhase := "rolling", isAnimating := false }, r.2)
  else if r.1.isGameOver = true then ({ r.1 with isAnimating := false }, r.2)
  else r

/-- After movement: land (`gamePhase = "landed"`), resolve the square, then
the end-of-turn bookkeeping. -/
def movePlayerLand (g : ℕ → Frac) (r : GameState × ℕ) : GameState × ℕ :=
  movePlayerEnd (handleSquareLanding g r.2 { r.1 with gamePhase := "landed" })

/-- The post-loop half of `movePlayer`: on a boss return stop; when the loop
broke at square 0 run the (post-loop) lap handling — the `playerLap ==
lapsToComplete` re-check is unreachable there since the loop already
returned in that case, and is modelled faithfully — otherwise land. -/
def movePlayerPost (g : ℕ → Frac) (r : GameState × ℕ × LoopExit) : GameState × ℕ :=
  match r.2.2 with
  | LoopExit.bossReturn => (r.1, r.2.1)
  | LoopExit.brokeAtStart =>
    if r.1.playerLap = r.1.currentStageConfig.lapsToComplete then
      (handleBossEncounter
        { r.1 with gamePhase := "boss_encounter", isAnimating := false }, r.2.1)
    else movePlayerLand g (setupLapEffects g r.2.1 r.1)
  | LoopExit.completed => movePlayerLand g (r.1, r.2.1)

/-- `movePlayer(steps)`: run the loop, then the post-loop lap handling, the
landing resolution, and the end-of-turn phase bookkeeping. -/
def movePlayer (g : ℕ → Frac) (k : ℕ) (steps : ℤ) (s : GameState) : GameState × ℕ :=
  movePlayerPost g
    (moveLoop g (decide (steps > 0)) k steps.natAbs
      { s with gamePhase := "player_moving_animation",
               lastPlayerPositionBeforeThisMove := s.playerPosition })

/-- The end of a free-die boss throw in `rollDice`: victory check first,
then the defeat check. -/
def bossFreeResolve (g : ℕ → Frac) (k1 : ℕ) (boss : Boss) (s2 : GameState) :
    GameState × ℕ :=
  if s2.currentDiceThrows.sum ≥ boss.hp then defeatBoss g k1 false s2
  else if s2.remainingBossRolls = 0 ∧ s2.reservedDice = [] then
    (failBossFight s2, k1)
  else (s2, k1)

/-- Resolve a chosen die to steps and move. -/
def rollMove (g : ℕ → Frac) (k : ℕ) (d : Die) (s1 : GameState) : GameState × ℕ :=
  movePlayer g (stepsOf g k d).2 (stepsOf g k d).1 s1

/-- `rollDice(reservedDieIndex = -1)`.  In the `boss_encounter` phase it
throws a free d6 (`Math.ceil(Math.random() * 6)`) against the boss,
consuming one budget unit and rejecting when the budget is exhausted; the
bag index is ignored there.  Otherwise it is gated on the `rolling` phase,
takes the bag die when the index is in range (an out-of-range index falls
through to an ephemeral Normal die), resolves the steps and moves.  A null
`currentBoss` in the boss branch would make the source throw at
`currentBoss.hp`; the model returns the state unchanged then. -/
def rollDice (g : ℕ → Frac) (k : ℕ) (reservedDieIndex : ℤ) (s : GameState) :
    GameState × ℕ :=
  if s.gamePhase = "boss_encounter" then
    if s.remainingBossRolls ≤ 0 then (s, k)
    else
      match s.currentBoss with
      | Option.none => (s, k)
      | Option.some boss =>
        bossFreeResolve g (k + 1) boss
          (applyBossDamage (ceilMul (g k) 6)
            { s with currentDiceThrows := s.currentDiceThrows ++ [ceilMul (g k) 6],
                     remainingBossRolls := s.remainingBossRolls - 1,
                     totalRolls := s.totalRolls + 1 })
  else if s.isGameOver = true ∨ s.gamePhase ≠ "rolling" ∨ s.isAnimating = true then
    (s, k)
  else if 0 ≤ reservedDieIndex ∧ reservedDieIndex < (s.reservedDice.length : ℤ) then
    rollMove g k (s.reservedDice.getD reservedDieIndex.toNat default)
      { s with isAnimating := true, gamePhase := "dice_rolling_animation",
               reservedDice := s.reservedDice.eraseIdx reservedDieIndex.toNat }
  else
    rollMove g k Die.normal
      { s with isAnimating := true, gamePhase := "dice_rolling_animation" }

/-! ## The engine's inbound command set -/

/-- The engine actions reachable from outside (the UI calls `rollDice`,
`rollDiceForBoss`, `playerMakesChoice`, `payToDefeatBoss`,
`initializeGame`, `resetGame`; `addReservedDie` and `advanceStage` are also
exposed store actions). -/
inductive Action
  | initializeGame
  | resetGame
  | rollDice (reservedDieIndex : ℤ)
  | rollDiceForBoss (die : Die)
  | playerMakesChoice (chosenOption : ChoiceOption)
  | payToDefeatBoss
  | addReservedDie (d : Die)
  | advanceStage

/-- One engine action applied to the store. -/
def step (g : ℕ → Frac) (k : ℕ) : Action → GameState → GameState × ℕ
  | Action.initializeGame, s => initializeGame g k s
  | Action.resetGame, s => resetGame g k s
  | Action.rollDice idx, s => rollDice g k idx s
  | Action.rollDiceForBoss d, s => rollDiceForBoss g k d s
  | Action.playerMakesChoice opt, s => (playerMakesChoice opt s, k)
  | Action.payToDefeatBoss, s => payToDefeatBoss g k s
  | Action.addReservedDie d, s => (addReservedDie d s, k)
  | Action.advanceStage, s => advanceStage g k s

/-! ## Frame lemmas: which state fields each function can touch -/

theorem setupLapEffects_shape (g : ℕ → Frac) (k : ℕ) (s : GameState) :
    (setupLapEffects g k s).1
      = { s with boardSquares := (setupLapEffects g k s).1.boardSquares } := rfl

theorem generateBoardLayout_shape (s : GameState) :
    generateBoardLayout s
      = { s with boardSquares := (generateBoardLayout s).boardSquares } := rfl

theorem setupStage_shape (g : ℕ → Frac) (k : ℕ) (s : GameState) :
    (setupStage g k s).1 = { s with
      boardRows := s.currentStageConfig.rows,
      boardCols := s.currentStageConfig.cols,
      playerLap := 1, playerPosition := 0, lastPlayerPositionBeforeThisMove := 0,
      choiceDetails := Option.none,
      boardSquares := (setupStage g k s).1.boardSquares,
      gamePhase := "rolling", isAnimating := false } := rfl

theorem cornerTax_shape (square : Square) (s : GameState) :
    cornerTax square s
      = { s with playerMoney := (cornerTax square s).playerMoney } := by
  unfold cornerTax
  split
  all_goals rfl

theorem landingDispatch_shape (g : ℕ → Frac) (k : ℕ) (square : Square)
    (s1 : GameState) :
    (landingDispatch g k square s1).1 = { s1 with
      playerMoney := (landingDispatch g k square s1).1.playerMoney,
      boardSquares := (landingDispatch g k square s1).1.boardSquares,
      gamePhase := (landingDispatch g k square s1).1.gamePhase,
      choiceDetails := (landingDispatch g k square s1).1.choiceDetails } := by
  unfold landingDispatch
  repeat' split
  all_goals rfl

theorem landingDispatch_phase (g : ℕ → Frac) (k : ℕ) (square : Square)
    (s1 : GameState) :
    (landingDispatch g k square s1).1.gamePhase = s1.gamePhase
    ∨ (landingDispatch g k square s1).1.gamePhase = "awaiting_choice" := by
  unfold landingDispatch
  repeat' split
  all_goals simp

theorem handleSquareLanding_shape (g : ℕ → Frac) (k : ℕ) (s : GameState) :
    (handleSquareLanding g k s).1 = { s with
      playerMoney := (handleSquareLanding g k s).1.playerMoney,
      boardSquares := (handleSquareLanding g k s).1.boardSquares,
      gamePhase := (handleSquareLanding g k s).1.gamePhase,
      choiceDetails := (handleSquareLanding g k s).1.choiceDetails,
      isAnimating := (handleSquareLanding g k s).1.isAnimating } := by
  unfold handleSquareLanding
  split
  · rfl
  split
  · rfl
  rw [landingDispatch_shape, cornerTax_shape]

theorem handleSquareLanding_phase (g : ℕ → Frac) (k : ℕ) (s : GameState) :
    (handleSquareLanding g k s).1.gamePhase = s.gamePhase
    ∨ (handleSquareLanding g k s).1.gamePhase = "rolling"
    ∨ (handleSquareLanding g k s).1.gamePhase = "awaiting_choice" := by
  unfold handleSquareLanding
  split
  · simp
  split
  · simp
  rcases landingDispatch_phase g k (s.boardSquares.getD s.playerPosition default)
      (cornerTax (s.boardSquares.getD s.playerPosition default) s) with h | h
  · rw [h, cornerTax_shape]
    exact Or.inl rfl
  · rw [h]
    exact Or.inr (Or.inr rfl)

theorem handleBossEncounter_shape (s : GameState) :
    handleBossEncounter s = s ∨
    ((handleBossEncounter s).gamePhase = "boss_encounter"
      ∧ (handleBossEncounter s).currentDiceThrows = []
      ∧ ∃ hp : ℤ, (handleBossEncounter s).currentBossHP = Option.some hp
          ∧ (handleBossEncounter s).currentBossMaxHP = Option.some hp) := by
  unfold handleBossEncounter
  split
  · exact Or.inl rfl
  · exact Or.inr ⟨rfl, rfl, _, rfl, rfl⟩

theorem handleBossEncounter_frame (s : GameState) :
    (handleBossEncounter s).playerStage = s.playerStage
    ∧ (handleBossEncounter s).playerMoney = s.playerMoney
    ∧ (handleBossEncounter s).reservedDice = s.reservedDice
    ∧ (handleBossEncounter s).isGameOver = s.isGameOver
    ∧ (handleBossEncounter s).playerLap = s.playerLap
    ∧ (handleBossEncounter s).playerPosition = s.playerPosition := by
  unfold handleBossEncounter
  split
  all_goals exact ⟨rfl, rfl, rfl, rfl, rfl, rfl⟩

theorem applyBossDamage_shape (v : ℕ) (s : GameState) :
    applyBossDamage v s
      = { s with currentBossHP := (applyBossDamage v s).currentBossHP } := by
  unfold applyBossDamage
  split
  all_goals rfl

theorem creditDefeat_eq (s : GameState) (b : Boss)
    (hb : s.currentBoss = Option.some b) :
    creditDefeat s = Option.some
      (if s.currentDiceThrows.sum = b.hp then
        { s with bossesDefeated := s.bossesDefeated + 1,
                 perfectBossDefeats := s.perfectBossDefeats + 1 }
      else { s with bossesDefeated := s.bossesDefeated + 1 }) := by
  unfold creditDefeat
  rw [hb]

/-- `stageAdvance` never touches money or the resolution counters, always
bumps the stage, and leaves the phase alone only when the run ends. -/
theorem stageAdvance_frame (g : ℕ → Frac) (k : ℕ) (s1 : GameState) :
    (stageAdvance g k s1).1.playerMoney = s1.playerMoney
    ∧ (stageAdvance g k s1).1.bribesBosses = s1.bribesBosses
    ∧ (stageAdvance g k s1).1.bossesDefeated = s1.bossesDefeated
    ∧ (stageAdvance g k s1).1.perfectBossDefeats = s1.perfectBossDefeats
    ∧ (stageAdvance g k s1).1.playerStage = s1.playerStage + 1
    ∧ ((stageAdvance g k s1).1.gamePhase = s1.gamePhase
        ∨ (stageAdvance g k s1).1.gamePhase = "rolling") := by
  unfold stageAdvance
  repeat' split
  · exact ⟨rfl, rfl, rfl, rfl, rfl, Or.inl rfl⟩
  · exact ⟨rfl, rfl, rfl, rfl, rfl, Or.inr rfl⟩
  · exact ⟨rfl, rfl, rfl, rfl, rfl, Or.inr rfl⟩

/-- `defeatBoss(false)` on a present boss: `bossesDefeated` always goes up
by one and `perfectBossDefeats` goes up exactly when the logged damage
equals the boss hp; the stage advances by one. -/
theorem defeatBoss_damage_credit (g : ℕ → Frac) (k : ℕ) (s : GameState) (b : Boss)
    (hb : s.currentBoss = Option.some b) :
    (defeatBoss g k false s).1.bossesDefeated = s.bossesDefeated + 1
    ∧ ((defeatBoss g k false s).1.perfectBossDefeats
        = s.perfectBossDefeats
          + if s.currentDiceThrows.sum = b.hp then 1 else 0)
    ∧ (defeatBoss g k false s).1.playerStage = s.playerStage + 1 := by
  have hdb : defeatBoss g k false s
      = stageAdvance g k
        (if s.currentDiceThrows.sum = b.hp then
          { s with bossesDefeated := s.bossesDefeated + 1,
                   perfectBossDefeats := s.perfectBossDefeats + 1 }
        else { s with bossesDefeated := s.bossesDefeated + 1 }) := by
    unfold defeatBoss
    rw [creditDefeat_eq s b hb]
    rfl
  rw [hdb]
  by_cases hperf : s.currentDiceThrows.sum = b.hp
  · rw [if_pos hperf]
    obtain ⟨-, -, h3, h4, h5, -⟩ := stageAdvance_frame g k
      { s with bossesDefeated := s.bossesDefeated + 1,
               perfectBossDefeats := s.perfectBossDefeats + 1 }
    rw [if_pos hperf]
    exact ⟨h3, by rw [h4]; try rfl, h5⟩
  · rw [if_neg hperf]
    obtain ⟨-, -, h3, h4, h5, -⟩ := stageAdvance_frame g k
      { s with bossesDefeated := s.bossesDefeated + 1 }
    rw [if_neg hperf]
    exact ⟨h3, by rw [h4]; try rfl, h5⟩

/-- `defeatBoss(true)` leaves money and all three resolution counters
alone. -/
theorem defeatBoss_true_frame (g : ℕ → Frac) (k : ℕ) (s : GameState) :
    (defeatBoss g k true s).1.playerMoney = s.playerMoney
    ∧ (defeatBoss g k true s).1.bribesBosses = s.bribesBosses
    ∧ (defeatBoss g k true s).1.bossesDefeated = s.bossesDefeated
    ∧ (defeatBoss g k true s).1.perfectBossDefeats = s.perfectBossDefeats := by
  have h : defeatBoss g k true s = stageAdvance g k s := rfl
  rw [h]
  obtain ⟨h1, h2, h3, h4, -, -⟩ := stageAdvance_frame g k s
  exact ⟨h1, h2, h3, h4⟩

/-! ## Concrete fixtures for witnesses and counterexamples -/

/-- A small 3×3 stage (8 perimeter squares) for concrete runs. -/
def testConfig : StageConfig :=
  { rows := 3, cols := 3, moneyMultiplier := { num := 1, den := 1 }, lapsToComplete := 3
    minBadSquares := 1, maxBadSquares := 1
    minChoiceDiceMoneySquares := 1, maxChoiceDiceMoneySquares := 1
    minChoicePickDieSquares := 0, maxChoicePickDieSquares := 0
    bossName := "Boss", bossImage := "boss.png"
    bossDefeatCondition := { diceThrows := 3, hp := 15, bribeCost := 40 } }

/-- A fresh store on the test stage (board not yet generated). -/
def testState : GameState :=
  { boardRows := 3, boardCols := 3, playerPosition := 0, playerMoney := 0
    playerLap := 1, playerStage := 1, reservedDice := [], maxDiceInBag := 15
    boardSquares := [], isGameOver := false, gamePhase := "rolling"
    choiceDetails := Option.none, isAnimating := false
    lastPlayerPositionBeforeThisMove := 0, currentBoss := Option.none
    currentDiceThrows := [], remainingBossRolls := 0
    currentBossHP := Option.none, currentBossMaxHP := Option.none
    totalRolls := 0, diceObtained := 0, bossesDefeated := 0
    perfectBossDefeats := 0, bribesBosses := 0, showSummaryModal := false
    currentStageConfig := testConfig }

/-- A degenerate random oracle (every output 0), valid for `RngValid`. -/
def zeroRng : ℕ → Frac := fun _ => { num := 0, den := 1 }

theorem zeroRng_valid : RngValid zeroRng := by
  intro k
  exact Nat.zero_lt_one

def testBoss : Boss :=
  { diceThrows := 3, hp := 15, bribeCost := 40, image := "boss.png", name := "Boss" }

/-- A mid-encounter store: boss up, 3 throws left, empty bag. -/
def bossState : GameState :=
  { testState with gamePhase := "boss_encounter",
                   currentBoss := Option.some testBoss,
                   remainingBossRolls := 3,
                   currentBossHP := Option.some 15,
                   currentBossMaxHP := Option.some 15 }

/-- The phase after `defeatBoss(false)` on a present boss is either
untouched (run ended) or `"rolling"`. -/
theorem defeatBoss_false_phase (g : ℕ → Frac) (k : ℕ) (s : GameState) (b : Boss)
    (hb : s.currentBoss = Option.some b) :
    (defeatBoss g k false s).1.gamePhase = s.gamePhase
    ∨ (defeatBoss g k false s).1.gamePhase = "rolling" := by
  have hdb : defeatBoss g k false s
      = stageAdvance g k
        (if s.currentDiceThrows.sum = b.hp then
          { s with bossesDefeated := s.bossesDefeated + 1,
                   perfectBossDefeats := s.perfectBossDefeats + 1 }
        else { s with bossesDefeated := s.bossesDefeated + 1 }) := by
    unfold defeatBoss
    rw [creditDefeat_eq s b hb]
    rfl
  rw [hdb]
  by_cases hperf : s.currentDiceThrows.sum = b.hp
  · rw [if_pos hperf]
    obtain ⟨-, -, -, -, -, h6⟩ := stageAdvance_frame g k
      { s with bossesDefeated := s.bossesDefeated + 1,
               perfectBossDefeats := s.perfectBossDefeats + 1 }
    exact h6
  · rw [if_neg hperf]
    obtain ⟨-, -, -, -, -, h6⟩ := stageAdvance_frame g k
      { s with bossesDefeated := s.bossesDefeated + 1 }
    exact h6

/-! ## C8: damage-victory counters -/

/-- **C8**: at every damage-based boss victory (`defeatBoss` without a
bribe, reading the throws logged at the moment of victory),
`bossesDefeated` is incremented, and `perfectBossDefeats` is incremented if
and only if the cumulative damage exactly equals the boss's hp. -/
theorem C8_damage_victory_counters (g : ℕ → Frac) (k : ℕ) (s : GameState)
    (b : Boss) (hb : s.currentBoss = Option.some b) :
    (defeatBoss g k false s).1.bossesDefeated = s.bossesDefeated + 1
    ∧ ((defeatBoss g k false s).1.perfectBossDefeats
          = s.perfectBossDefeats + 1
        ↔ s.currentDiceThrows.sum = b.hp) := by
  obtain ⟨h1, h2, -⟩ := defeatBoss_damage_credit g k s b hb
  refine ⟨h1, ?_⟩
  by_cases hperf : s.currentDiceThrows.sum = b.hp
  · rw [if_pos hperf] at h2
    exact ⟨fun _ => hperf, fun _ => h2⟩
  · rw [if_neg hperf] at h2
    constructor
    · intro hcontra
      rw [h2] at hcontra
      omega
    · intro h
      exact absurd h hperf

/-- Witness for C8: hp 15, throws `[10, 5]` — a perfect defeat. -/
theorem C8_damage_victory_counters_witness :
    (defeatBoss zeroRng 0 false
        { bossState with currentDiceThrows := [10, 5] }).1.bossesDefeated
      = { bossState with currentDiceThrows := [10, 5] }.bossesDefeated + 1
    ∧ ((defeatBoss zeroRng 0 false
          { bossState with currentDiceThrows := [10, 5] }).1.perfectBossDefeats
        = { bossState with currentDiceThrows := [10, 5] }.perfectBossDefeats + 1
      ↔ ({ bossState with currentDiceThrows := [10, 5] }
          : GameState).currentDiceThrows.sum = testBoss.hp) :=
  C8_damage_victory_counters zeroRng 0
    { bossState with currentDiceThrows := [10, 5] } testBoss rfl

/-! ## C7: the bribe command -/

/-- **C7**: `payToDefeatBoss` succeeds only with `playerMoney ≥ bribeCost`;
on success it deducts exactly `bribeCost`, increments `bribesBosses` and
leaves `bossesDefeated` and `perfectBossDefeats` alone; with insufficient
money the state is unchanged. -/
theorem C7_bribe_only_with_money (g : ℕ → Frac) (k : ℕ) (s : GameState)
    (b : Boss) (hb : s.currentBoss = Option.some b) :
    (((b.bribeCost : ℤ) ≤ s.playerMoney →
        (payToDefeatBoss g k s).1.playerMoney = s.playerMoney - (b.bribeCost : ℤ)
        ∧ (payToDefeatBoss g k s).1.bribesBosses = s.bribesBosses + 1
        ∧ (payToDefeatBoss g k s).1.bossesDefeated = s.bossesDefeated
        ∧ (payToDefeatBoss g k s).1.perfectBossDefeats = s.perfectBossDefeats)
      ∧ (s.playerMoney < (b.bribeCost : ℤ) → payToDefeatBoss g k s = (s, k))) := by
  have hred : payToDefeatBoss g k s
      = if s.playerMoney ≥ (b.bribeCost : ℤ) then
          defeatBoss g k true
            { s with playerMoney := s.playerMoney - (b.bribeCost : ℤ),
                     bribesBosses := s.bribesBosses + 1 }
        else (s, k) := by
    unfold payToDefeatBoss
    rw [hb]
  rw [hred]
  constructor
  · intro hle
    rw [if_pos hle]
    obtain ⟨h1, h2, h3, h4⟩ := defeatBoss_true_frame g k
      { s with playerMoney := s.playerMoney - (b.bribeCost : ℤ),
               bribesBosses := s.bribesBosses + 1 }
    exact ⟨h1, h2, h3, h4⟩
  · intro hlt
    rw [if_neg (not_le.mpr hlt)]

/-- Witness for C7: both the funded and the unfunded case at the test
boss. -/
theorem C7_bribe_only_with_money_witness :
    (((testBoss.bribeCost : ℤ) ≤ ({ bossState with playerMoney := 100 }
          : GameState).playerMoney →
        (payToDefeatBoss zeroRng 0
            { bossState with playerMoney := 100 }).1.playerMoney
          = ({ bossState with playerMoney := 100 } : GameState).playerMoney
            - (testBoss.bribeCost : ℤ)
        ∧ (payToDefeatBoss zeroRng 0
            { bossState with playerMoney := 100 }).1.bribesBosses
          = ({ bossState with playerMoney := 100 } : GameState).bribesBosses + 1
        ∧ (payToDefeatBoss zeroRng 0
            { bossState with playerMoney := 100 }).1.bossesDefeated
          = ({ bossState with playerMoney := 100 } : GameState).bossesDefeated
        ∧ (payToDefeatBoss zeroRng 0
            { bossState with playerMoney := 100 }).1.perfectBossDefeats
          = ({ bossState with playerMoney := 100 }
              : GameState).perfectBossDefeats)
      ∧ (({ bossState with playerMoney := 100 } : GameState).playerMoney
            < (testBoss.bribeCost : ℤ) →
          payToDefeatBoss zeroRng 0 { bossState with playerMoney := 100 }
            = ({ bossState with playerMoney := 100 }, 0)))
    ∧ payToDefeatBoss zeroRng 0 { bossState with playerMoney := 5 }
        = ({ bossState with playerMoney := 5 }, 0) := by
  constructor
  · exact C7_bribe_only_with_money zeroRng 0
      { bossState with playerMoney := 100 } testBoss rfl
  · exact (C7_bribe_only_with_money zeroRng 0
      { bossState with playerMoney := 5 } testBoss rfl).2 (by decide)

/-! ## C2: the dice-throw budget -/

/-- **C2, counterexample**: a bag-die boss throw (`rollDiceForBoss`) with 3
budget units left proceeds, logs the throw and removes the die, yet leaves
`remainingBossRolls` at 3 — it does not consume a budget unit; and with the
budget at 0 it is not rejected either. -/
theorem C2_counterexample :
    (rollDiceForBoss zeroRng 0 (Die.fixed 1)
        { bossState with reservedDice := [Die.fixed 1, Die.fixed 1] }).1.remainingBossRolls
      = 3
    ∧ (rollDiceForBoss zeroRng 0 (Die.fixed 1)
        { bossState with reservedDice := [Die.fixed 1, Die.fixed 1] }).1.currentDiceThrows
      = [1]
    ∧ (rollDiceForBoss zeroRng 0 (Die.fixed 1)
        { bossState with reservedDice := [Die.fixed 1, Die.fixed 1] }).1.reservedDice
      = [Die.fixed 1]
    ∧ (rollDiceForBoss zeroRng 0 (Die.fixed 1)
        { bossState with remainingBossRolls := 0,
                         reservedDice := [Die.fixed 1, Die.fixed 1] }).1.currentDiceThrows
      = [1] := by
  refine ⟨?_, ?_, ?_, ?_⟩
  all_goals decide

/-- **C2, amended**: only the free-die throw of `rollDice` consumes one unit
of `remainingBossRolls` and is rejected as a no-op at zero budget; a
bag-die throw via `rollDiceForBoss` logs its roll without touching the
budget (and regardless of the budget). -/
theorem C2_budget_amended (g : ℕ → Frac) (k : ℕ) (idx : ℤ) (d : Die)
    (s : GameState) (b : Boss)
    (hphase : s.gamePhase = "boss_encounter")
    (hb : s.currentBoss = Option.some b) :
    (0 < s.remainingBossRolls →
      s.currentDiceThrows.sum + ceilMul (g k) 6 < b.hp →
      (rollDice g k idx s).1.remainingBossRolls = s.remainingBossRolls - 1
      ∧ (rollDice g k idx s).1.currentDiceThrows
          = s.currentDiceThrows ++ [ceilMul (g k) 6])
    ∧ (s.remainingBossRolls ≤ 0 → rollDice g k idx s = (s, k))
    ∧ (s.currentDiceThrows.sum + (bossRoll g k d).1 < b.hp →
      (rollDiceForBoss g k d s).1.remainingBossRolls = s.remainingBossRolls
      ∧ (rollDiceForBoss g k d s).1.currentDiceThrows
          = s.currentDiceThrows ++ [(bossRoll g k d).1]) := by
  refine ⟨?_, ?_, ?_⟩
  · intro hbudget hlt
    have hred : rollDice g k idx s
        = bossFreeResolve g (k + 1) b
            (applyBossDamage (ceilMul (g k) 6)
              { s with
                  currentDiceThrows := s.currentDiceThrows ++ [ceilMul (g k) 6],
                  remainingBossRolls := s.remainingBossRolls - 1,
                  totalRolls := s.totalRolls + 1 }) := by
      unfold rollDice
      rw [if_pos hphase, if_neg (not_le.mpr hbudget), hb]
    rw [hred, applyBossDamage_shape]
    unfold bossFreeResolve
    have hsum : (s.currentDiceThrows ++ [ceilMul (g k) 6]).sum
        = s.currentDiceThrows.sum + ceilMul (g k) 6 := by simp
    split
    · rename_i hvic
      have hvic' : (s.currentDiceThrows ++ [ceilMul (g k) 6]).sum ≥ b.hp := hvic
      omega
    · split
      · exact ⟨rfl, rfl⟩
      · exact ⟨rfl, rfl⟩
  · intro hbudget
    unfold rollDice
    rw [if_pos hphase, if_pos hbudget]
  · intro hlt
    have hphase' : ¬ s.gamePhase ≠ "boss_encounter" := by
      simp [hphase]
    have hred : rollDiceForBoss g k d s
        = bossBagResolve g (bossRoll g k d).2 b
            (applyBossDamage (bossRoll g k d).1
              { s with reservedDice := s.reservedDice.erase d,
                       currentDiceThrows :=
                         s.currentDiceThrows ++ [(bossRoll g k d).1],
                       totalRolls := s.totalRolls + 1 }) := by
      unfold rollDiceForBoss
      rw [if_neg hphase', hb]
    rw [hred, applyBossDamage_shape]
    unfold bossBagResolve
    have hsum : (s.currentDiceThrows ++ [(bossRoll g k d).1]).sum
        = s.currentDiceThrows.sum + (bossRoll g k d).1 := by simp
    split
    · rename_i hvic
      have hvic' : (s.currentDiceThrows ++ [(bossRoll g k d).1]).sum ≥ b.hp := hvic
      omega
    · split
      · exact ⟨rfl, rfl⟩
      · exact ⟨rfl, rfl⟩

/-- Witness for C2 (amended): free throws at budget 3 and 0, and a bag
throw at budget 3. -/
theorem C2_budget_amended_witness :
    ((rollDice zeroRng 0 (-1) bossState).1.remainingBossRolls
        = bossState.remainingBossRolls - 1
      ∧ (rollDice zeroRng 0 (-1) bossState).1.currentDiceThrows
          = bossState.currentDiceThrows ++ [ceilMul (zeroRng 0) 6])
    ∧ rollDice zeroRng 0 (-1) { bossState with remainingBossRolls := 0 }
        = ({ bossState with remainingBossRolls := 0 }, 0)
    ∧ ((rollDiceForBoss zeroRng 0 (Die.fixed 2) bossState).1.remainingBossRolls
        = bossState.remainingBossRolls
      ∧ (rollDiceForBoss zeroRng 0 (Die.fixed 2) bossState).1.currentDiceThrows
          = bossState.currentDiceThrows
            ++ [(bossRoll zeroRng 0 (Die.fixed 2)).1]) := by
  refine ⟨?_, ?_, ?_⟩
  · exact (C2_budget_amended zeroRng 0 (-1) Die.normal bossState testBoss rfl
      rfl).1 (by decide) (by decide)
  · exact (C2_budget_amended zeroRng 0 (-1) Die.normal
      { bossState with remainingBossRolls := 0 } testBoss rfl rfl).2.1 (by decide)
  · exact (C2_budget_amended zeroRng 0 (-1) (Die.fixed 2) bossState testBoss rfl
      rfl).2.2 (by decide)

/-! ## C4: run end after the last stage -/

/-- `stageAdvance` from the last stage: the run ends with the summary
surfaced and every other field (the phase included) untouched. -/
theorem stageAdvance_end (g : ℕ → Frac) (k : ℕ) (s1 : GameState)
    (hlast : MAX_STAGES ≤ s1.playerStage) :
    stageAdvance g k s1
      = ({ s1 with playerStage := s1.playerStage + 1, isGameOver := true,
                   showSummaryModal := true }, k) := by
  unfold stageAdvance
  rw [if_pos (by omega)]

/-- **C4, counterexample**: a damage victory over the stage-5 boss ends the
run (`isGameOver`, summary modal) but the phase stays `"boss_encounter"` —
it is never set to `"game_won"`. -/
theorem C4_counterexample :
    (rollDiceForBoss zeroRng 0 (Die.fixed 5)
        { bossState with playerStage := 5, currentDiceThrows := [10],
                         currentBossHP := Option.some 5 }).1.isGameOver = true
    ∧ (rollDiceForBoss zeroRng 0 (Die.fixed 5)
        { bossState with playerStage := 5, currentDiceThrows := [10],
                         currentBossHP := Option.some 5 }).1.showSummaryModal = true
    ∧ (rollDiceForBoss zeroRng 0 (Die.fixed 5)
        { bossState with playerStage := 5, currentDiceThrows := [10],
                         currentBossHP := Option.some 5 }).1.gamePhase
      = "boss_encounter"
    ∧ (rollDiceForBoss zeroRng 0 (Die.fixed 5)
        { bossState with playerStage := 5, currentDiceThrows := [10],
                         currentBossHP := Option.some 5 }).1.gamePhase
      ≠ "game_won" := by
  refine ⟨?_, ?_, ?_, ?_⟩
  all_goals decide

/-- **C4, amended**: when a boss resolution (`defeatBoss`, damage or bribe)
advances `playerStage` beyond the last configured stage, the run ends
terminally — `isGameOver` is set and the run summary modal is surfaced —
but `gamePhase` is left untouched rather than set to `"game_won"`; only the
never-invoked `advanceStage` action produces the `"game_won"` phase. -/
theorem C4_run_end_amended (g : ℕ → Frac) (k : ℕ) (wb : Bool) (s : GameState)
    (b : Boss) (hb : s.currentBoss = Option.some b)
    (hlast : MAX_STAGES ≤ s.playerStage) :
    ((defeatBoss g k wb s).1.isGameOver = true
      ∧ (defeatBoss g k wb s).1.showSummaryModal = true
      ∧ (defeatBoss g k wb s).1.gamePhase = s.gamePhase)
    ∧ ((advanceStage g k s).1.gamePhase = "game_won"
      ∧ (advanceStage g k s).1.isGameOver = true) := by
  constructor
  · cases wb with
    | true =>
      have h : defeatBoss g k true s = stageAdvance g k s := rfl
      rw [h, stageAdvance_end g k s hlast]
      exact ⟨rfl, rfl, rfl⟩
    | false =>
      have hdb : defeatBoss g k false s
          = stageAdvance g k
            (if s.currentDiceThrows.sum = b.hp then
              { s with bossesDefeated := s.bossesDefeated + 1,
                       perfectBossDefeats := s.perfectBossDefeats + 1 }
            else { s with bossesDefeated := s.bossesDefeated + 1 }) := by
        unfold defeatBoss
        rw [creditDefeat_eq s b hb]
        rfl
      rw [hdb]
      by_cases hperf : s.currentDiceThrows.sum = b.hp
      · rw [if_pos hperf,
          stageAdvance_end g k
            { s with bossesDefeated := s.bossesDefeated + 1,
                     perfectBossDefeats := s.perfectBossDefeats + 1 } hlast]
        exact ⟨rfl, rfl, rfl⟩
      · rw [if_neg hperf,
          stageAdvance_end g k
            { s with bossesDefeated := s.bossesDefeated + 1 } hlast]
        exact ⟨rfl, rfl, rfl⟩
  · unfold advanceStage
    rw [if_pos (by simp only [MAX_STAGES] at hlast ⊢; omega)]
    exact ⟨rfl, rfl⟩

/-- Witness for C4 (amended): the stage-5 victory state. -/
theorem C4_run_end_amended_witness :
    ((defeatBoss zeroRng 0 false
        { bossState with playerStage := 5,
                         currentDiceThrows := [10, 5] }).1.isGameOver = true
      ∧ (defeatBoss zeroRng 0 false
          { bossState with playerStage := 5,
                           currentDiceThrows := [10, 5] }).1.showSummaryModal = true
      ∧ (defeatBoss zeroRng 0 false
          { bossState with playerStage := 5,
                           currentDiceThrows := [10, 5] }).1.gamePhase
        = ({ bossState with playerStage := 5,
                            currentDiceThrows := [10, 5] } : GameState).gamePhase)
    ∧ ((advanceStage zeroRng 0
          { bossState with playerStage := 5,
                           currentDiceThrows := [10, 5] }).1.gamePhase = "game_won"
      ∧ (advanceStage zeroRng 0
          { bossState with playerStage := 5,
                           currentDiceThrows := [10, 5] }).1.isGameOver = true) :=
  C4_run_end_amended zeroRng 0 false
    { bossState with playerStage := 5, currentDiceThrows := [10, 5] }
    testBoss rfl (by decide)

/-! ## C1: victory evaluated before the defeat check -/

/-- When the damage total has reached the boss hp, `bossFreeResolve`
resolves as a damage victory (the defeat check is never reached). -/
theorem bossFreeResolve_victory (g : ℕ → Frac) (k1 : ℕ) (b : Boss)
    (s2 : GameState) (hb2 : s2.currentBoss = Option.some b)
    (hph2 : s2.gamePhase = "boss_encounter")
    (hvic : s2.currentDiceThrows.sum ≥ b.hp) :
    (bossFreeResolve g k1 b s2).1.bossesDefeated = s2.bossesDefeated + 1
    ∧ (bossFreeResolve g k1 b s2).1.playerStage = s2.playerStage + 1
    ∧ (bossFreeResolve g k1 b s2).1.gamePhase ≠ "game_lost" := by
  unfold bossFreeResolve
  rw [if_pos hvic]
  obtain ⟨h1, -, h3⟩ := defeatBoss_damage_credit g k1 s2 b hb2
  refine ⟨h1, h3, ?_⟩
  rcases defeatBoss_false_phase g k1 s2 b hb2 with h | h
  · rw [h, hph2]
    decide
  · rw [h]
    decide

/-- Same fact for `bossBagResolve`. -/
theorem bossBagResolve_victory (g : ℕ → Frac) (k1 : ℕ) (b : Boss)
    (s2 : GameState) (hb2 : s2.currentBoss = Option.some b)
    (hph2 : s2.gamePhase = "boss_encounter")
    (hvic : s2.currentDiceThrows.sum ≥ b.hp) :
    (bossBagResolve g k1 b s2).1.bossesDefeated = s2.bossesDefeated + 1
    ∧ (bossBagResolve g k1 b s2).1.playerStage = s2.playerStage + 1
    ∧ (bossBagResolve g k1 b s2).1.gamePhase ≠ "game_lost" := by
  unfold bossBagResolve
  rw [if_pos hvic]
  obtain ⟨h1, -, h3⟩ := defeatBoss_damage_credit g k1 s2 b hb2
  refine ⟨h1, h3, ?_⟩
  rcases defeatBoss_false_phase g k1 s2 b hb2 with h | h
  · rw [h, hph2]
    decide
  · rw [h]
    decide

/-- **C1**: on any boss throw — the free d6 of `rollDice` (budget
permitting) or any bag die via `rollDiceForBoss` — if the cumulative logged
damage after the throw reaches the boss hp, the encounter resolves as a
damage victory at that throw (`bossesDefeated` incremented, stage
advanced) and never as the "no more throws" defeat, even when the budget
reaches zero on the same throw. -/
theorem C1_victory_beats_defeat_check (g : ℕ → Frac) (k : ℕ) (idx : ℤ)
    (d : Die) (s : GameState) (b : Boss)
    (hphase : s.gamePhase = "boss_encounter")
    (hb : s.currentBoss = Option.some b) :
    (0 < s.remainingBossRolls →
      b.hp ≤ s.currentDiceThrows.sum + ceilMul (g k) 6 →
      (rollDice g k idx s).1.bossesDefeated = s.bossesDefeated + 1
      ∧ (rollDice g k idx s).1.playerStage = s.playerStage + 1
      ∧ (rollDice g k idx s).1.gamePhase ≠ "game_lost")
    ∧ (b.hp ≤ s.currentDiceThrows.sum + (bossRoll g k d).1 →
      (rollDiceForBoss g k d s).1.bossesDefeated = s.bossesDefeated + 1
      ∧ (rollDiceForBoss g k d s).1.playerStage = s.playerStage + 1
      ∧ (rollDiceForBoss g k d s).1.gamePhase ≠ "game_lost") := by
  constructor
  · intro hbudget hge
    have hred : rollDice g k idx s
        = bossFreeResolve g (k + 1) b
            (applyBossDamage (ceilMul (g k) 6)
              { s with
                  currentDiceThrows := s.currentDiceThrows ++ [ceilMul (g k) 6],
                  remainingBossRolls := s.remainingBossRolls - 1,
                  totalRolls := s.totalRolls + 1 }) := by
      unfold rollDice
      rw [if_pos hphase, if_neg (not_le.mpr hbudget), hb]
    rw [hred, applyBossDamage_shape]
    exact bossFreeResolve_victory g (k + 1) b _ hb hphase
      (by show (s.currentDiceThrows ++ [ceilMul (g k) 6]).sum ≥ b.hp
          simp only [List.sum_append, List.sum_cons, List.sum_nil]
          omega)
  · intro hge
    have hphase' : ¬ s.gamePhase ≠ "boss_encounter" := by simp [hphase]
    have hred : rollDiceForBoss g k d s
        = bossBagResolve g (bossRoll g k d).2 b
            (applyBossDamage (bossRoll g k d).1
              { s with reservedDice := s.reservedDice.erase d,
                       currentDiceThrows :=
                         s.currentDiceThrows ++ [(bossRoll g k d).1],
                       totalRolls := s.totalRolls + 1 }) := by
      unfold rollDiceForBoss
      rw [if_neg hphase', hb]
    rw [hred, applyBossDamage_shape]
    exact bossBagResolve_victory g (bossRoll g k d).2 b _ hb hphase
      (by show (s.currentDiceThrows ++ [(bossRoll g k d).1]).sum ≥ b.hp
          simp only [List.sum_append, List.sum_cons, List.sum_nil]
          omega)

/-- A random oracle whose every output is `5/6` (free d6 throws roll 5). -/
def fiveRng : ℕ → Frac := fun _ => { num := 5, den := 6 }

/-- Witness for C1: hp 15, throws `[10]`, last budget unit; the free throw
rolls 5, an exact final hit with the budget reaching zero on the same
throw — and a bag die `Fixed 5` likewise. -/
theorem C1_victory_beats_defeat_check_witness :
    ((rollDice fiveRng 0 (-1)
        { bossState with playerStage := 5, currentDiceThrows := [10],
                         remainingBossRolls := 1 }).1.bossesDefeated
      = ({ bossState with playerStage := 5, currentDiceThrows := [10],
                          remainingBossRolls := 1 } : GameState).bossesDefeated + 1
      ∧ (rollDice fiveRng 0 (-1)
          { bossState with playerStage := 5, currentDiceThrows := [10],
                           remainingBossRolls := 1 }).1.playerStage
        = ({ bossState with playerStage := 5, currentDiceThrows := [10],
                            remainingBossRolls := 1 } : GameState).playerStage + 1
      ∧ (rollDice fiveRng 0 (-1)
          { bossState with playerStage := 5, currentDiceThrows := [10],
                           remainingBossRolls := 1 }).1.gamePhase ≠ "game_lost")
    ∧ ((rollDiceForBoss fiveRng 0 (Die.fixed 5)
        { bossState with playerStage := 5, currentDiceThrows := [10],
                         remainingBossRolls := 1 }).1.bossesDefeated
      = ({ bossState with playerStage := 5, currentDiceThrows := [10],
                          remainingBossRolls := 1 } : GameState).bossesDefeated + 1
      ∧ (rollDiceForBoss fiveRng 0 (Die.fixed 5)
          { bossState with playerStage := 5, currentDiceThrows := [10],
                           remainingBossRolls := 1 }).1.playerStage
        = ({ bossState with playerStage := 5, currentDiceThrows := [10],
                            remainingBossRolls := 1 } : GameState).playerStage + 1
      ∧ (rollDiceForBoss fiveRng 0 (Die.fixed 5)
          { bossState with playerStage := 5, currentDiceThrows := [10],
                           remainingBossRolls := 1 }).1.gamePhase ≠ "game_lost") := by
  constructor
  · exact (C1_victory_beats_defeat_check fiveRng 0 (-1) Die.normal
      { bossState with playerStage := 5, currentDiceThrows := [10],
                       remainingBossRolls := 1 } testBoss rfl rfl).1
      (by decide) (by decide)
  · exact (C1_victory_beats_defeat_check fiveRng 0 (-1) (Die.fixed 5)
      { bossState with playerStage := 5, currentDiceThrows := [10],
                       remainingBossRolls := 1 } testBoss rfl rfl).2
      (by decide)

/-! ## C10: the displayed boss HP tracks the throw log -/

/-- The boss-display invariant: during a boss encounter the displayed hp is
the max hp minus the sum of the logged throws (it may go negative on an
overkill final hit). -/
def bossInv (s : GameState) : Prop :=
  s.gamePhase = "boss_encounter" →
    s.currentBossHP
      = s.currentBossMaxHP.map (fun m => m - (s.currentDiceThrows.sum : ℤ))

instance (s : GameState) : Decidable (bossInv s) := by
  unfold bossInv
  infer_instance

theorem handleBossEncounter_inv (s : GameState)
    (hcfg : (STAGE_CONFIGS s.playerStage).isSome) :
    bossInv (handleBossEncounter s) := by
  unfold handleBossEncounter bossInv
  split
  · rename_i heq
    rw [heq] at hcfg
    simp at hcfg
  · intro _
    simp

theorem creditDefeat_frame (s s1 : GameState)
    (h : creditDefeat s = Option.some s1) :
    s1.gamePhase = s.gamePhase
    ∧ s1.currentBossHP = s.currentBossHP
    ∧ s1.currentBossMaxHP = s.currentBossMaxHP
    ∧ s1.currentDiceThrows = s.currentDiceThrows := by
  unfold creditDefeat at h
  split at h
  · cases h
  · split at h
    all_goals
      injection h with h1
      rw [← h1]
      exact ⟨rfl, rfl, rfl, rfl⟩

theorem stageAdvance_inv (g : ℕ → Frac) (k : ℕ) (s1 : GameState)
    (hinv : bossInv s1) : bossInv (stageAdvance g k s1).1 := by
  unfold stageAdvance
  split
  · intro h
    exact hinv h
  · split
    · intro h
      exact absurd (show ("rolling" : String) = "boss_encounter" from h) (by decide)
    · intro h
      rw [setupStage_shape] at h
      exact absurd (show ("rolling" : String) = "boss_encounter" from h) (by decide)

theorem defeatBoss_inv (g : ℕ → Frac) (k : ℕ) (wb : Bool) (s : GameState)
    (hinv : bossInv s) : bossInv (defeatBoss g k wb s).1 := by
  unfold defeatBoss
  split
  · exact stageAdvance_inv g k s hinv
  · split
    · exact hinv
    · rename_i s1 heq
      apply stageAdvance_inv
      obtain ⟨h1, h2, h3, h4⟩ := creditDefeat_frame s s1 heq
      intro hph
      rw [h2, h3, h4]
      exact hinv (h1 ▸ hph)

theorem failBossFight_inv (s : GameState) : bossInv (failBossFight s) := by
  unfold failBossFight bossInv
  intro h
  exact absurd (show ("game_lost" : String) = "boss_encounter" from h) (by decide)

theorem bossFreeResolve_inv (g : ℕ → Frac) (k1 : ℕ) (b : Boss)
    (s2 : GameState) (hinv2 : bossInv s2) :
    bossInv (bossFreeResolve g k1 b s2).1 := by
  unfold bossFreeResolve
  split
  · exact defeatBoss_inv g k1 false s2 hinv2
  · split
    · exact failBossFight_inv s2
    · exact hinv2

theorem bossBagResolve_inv (g : ℕ → Frac) (k1 : ℕ) (b : Boss)
    (s2 : GameState) (hinv2 : bossInv s2) :
    bossInv (bossBagResolve g k1 b s2).1 := by
  unfold bossBagResolve
  split
  · exact defeatBoss_inv g k1 false s2 hinv2
  · split
    · exact failBossFight_inv s2
    · exact hinv2

/-- The displayed hp after one application of `applyBossDamage`. -/
def hpAfterDamage (hpOpt : Option ℤ) (v : ℕ) : Option ℤ :=
  match hpOpt with
  | Option.none => Option.none
  | Option.some hp => Option.some (hp - (v : ℤ))

theorem applyBossDamage_hp (v : ℕ) (t : GameState) :
    (applyBossDamage v t).currentBossHP = hpAfterDamage t.currentBossHP v := by
  unfold applyBossDamage
  split
  · rename_i heq
    rw [heq]
    rfl
  · rename_i hp heq
    rw [heq]
    rfl

/-- The HP bookkeeping of one logged throw. -/
theorem hp_update (hpOpt maxOpt : Option ℤ) (sum v : ℕ)
    (h : hpOpt = maxOpt.map (fun m => m - (sum : ℤ))) :
    hpAfterDamage hpOpt v
      = maxOpt.map (fun m => m - ((sum + v : ℕ) : ℤ)) := by
  cases maxOpt with
  | none =>
    simp at h
    rw [h]
    rfl
  | some m =>
    simp at h
    rw [h]
    unfold hpAfterDamage
    simp
    ring

theorem stepCredit_shape (s : GameState) :
    stepCredit s = { s with playerMoney := (stepCredit s).playerMoney } := by
  unfold stepCredit
  split
  all_goals rfl

/-- Facts about the movement loop: it never changes the stage; on a boss
return the invariant is established (configs permitting) and the phase is
`boss_encounter`; on the other exits the phase is untouched. -/
theorem moveLoop_facts (g : ℕ → Frac) (fwd : Bool) : ∀ (n k : ℕ) (s : GameState),
    (moveLoop g fwd k n s).1.playerStage = s.playerStage
    ∧ ((moveLoop g fwd k n s).2.2 = LoopExit.bossReturn →
        ((STAGE_CONFIGS s.playerStage).isSome → bossInv (moveLoop g fwd k n s).1)
        ∧ (moveLoop g fwd k n s).1.gamePhase = "boss_encounter")
    ∧ ((moveLoop g fwd k n s).2.2 ≠ LoopExit.bossReturn →
        (moveLoop g fwd k n s).1.gamePhase = s.gamePhase) := by
  intro n
  induction n with
  | zero =>
    intro k s
    exact ⟨rfl, fun h => absurd h (by simp [moveLoop]), fun _ => rfl⟩
  | succ m ih =>
    intro k s
    unfold moveLoop
    split
    · exact ⟨rfl, fun h => absurd h (by simp), fun _ => rfl⟩
    · split
      · split
        · split
          · -- boss return
            refine ⟨(handleBossEncounter_frame _).1, fun _ => ⟨?_, ?_⟩, ?_⟩
            · intro hcfg
              exact handleBossEncounter_inv _ hcfg
            · rcases handleBossEncounter_shape
                { s with playerPosition := (s.playerPosition + 1) % totalBoardSquares s,
                         playerLap := s.playerLap + 1,
                         gamePhase := "boss_encounter", isAnimating := false } with h | h
              · rw [h]
              · exact h.1
            · intro h
              exact absurd rfl h
          · -- broke at square 0
            refine ⟨?_, fun h => absurd h (by simp [withExit]), fun _ => ?_⟩
            · show (setupLapEffects g k _).1.playerStage = s.playerStage
              rw [setupLapEffects_shape]
            · show (setupLapEffects g k _).1.gamePhase = s.gamePhase
              rw [setupLapEffects_shape]
        · -- plain forward step
          have hst : (stepCredit { s with playerPosition :=
              (s.playerPosition + 1) % totalBoardSquares s }).playerStage
              = s.playerStage := by
            rw [stepCredit_shape]
          have hph : (stepCredit { s with playerPosition :=
              (s.playerPosition + 1) % totalBoardSquares s }).gamePhase
              = s.gamePhase := by
            rw [stepCredit_shape]
          obtain ⟨ih1, ih2, ih3⟩ := ih k (stepCredit
            { s with playerPosition := (s.playerPosition + 1) % totalBoardSquares s })
          refine ⟨ih1.trans hst, fun h => ⟨fun hcfg => (ih2 h).1 ?_, (ih2 h).2⟩,
            fun h => (ih3 h).trans hph⟩
          rw [hst]
          exact hcfg
      · -- reverse step
        obtain ⟨ih1, ih2, ih3⟩ := ih k
          { s with playerPosition :=
              (s.playerPosition + totalBoardSquares s - 1) % totalBoardSquares s }
        exact ⟨ih1, ih2, ih3⟩

theorem movePlayerEnd_phase (r' : GameState × ℕ) :
    (movePlayerEnd r').1.gamePhase = r'.1.gamePhase
      ∨ (movePlayerEnd r').1.gamePhase = "rolling" := by
  unfold movePlayerEnd
  split
  · exact Or.inl rfl
  · split
    · exact Or.inr rfl
    · split
      · exact Or.inl rfl
      · exact Or.inl rfl

/-- A landing pipeline never ends in the `boss_encounter` phase. -/
theorem movePlayerLand_not_boss (g : ℕ → Frac) (r : GameState × ℕ) :
    (movePlayerLand g r).1.gamePhase ≠ "boss_encounter" := by
  have hph := handleSquareLanding_phase g r.2 { r.1 with gamePhase := "landed" }
  unfold movePlayerLand
  intro hcontra
  rcases movePlayerEnd_phase
      (handleSquareLanding g r.2 { r.1 with gamePhase := "landed" }) with he | he
  · rw [he] at hcontra
    rcases hph with h | h | h
    · exact absurd (h.symm.trans hcontra)
        (show ¬ (("landed" : String) = "boss_encounter") by decide)
    · exact absurd (h.symm.trans hcontra)
        (show ¬ (("rolling" : String) = "boss_encounter") by decide)
    · exact absurd (h.symm.trans hcontra)
        (show ¬ (("awaiting_choice" : String) = "boss_encounter") by decide)
  · rw [he] at hcontra
    exact absurd hcontra
      (show ¬ (("rolling" : String) = "boss_encounter") by decide)

theorem movePlayerLand_inv (g : ℕ → Frac) (r : GameState × ℕ) :
    bossInv (movePlayerLand g r).1 := by
  intro h
  exact absurd h (movePlayerLand_not_boss g r)

theorem movePlayer_inv (g : ℕ → Frac) (k : ℕ) (steps : ℤ) (s : GameState)
    (hcfg : (STAGE_CONFIGS s.playerStage).isSome) :
    bossInv (movePlayer g k steps s).1 := by
  unfold movePlayer movePlayerPost
  obtain ⟨hstage, hboss, hother⟩ := moveLoop_facts g (decide (steps > 0))
    steps.natAbs k
    { s with gamePhase := "player_moving_animation",
             lastPlayerPositionBeforeThisMove := s.playerPosition }
  split
  · rename_i heq
    exact (hboss heq).1 hcfg
  · rename_i heq
    split
    · apply handleBossEncounter_inv
      have : (moveLoop g (decide (steps > 0)) k steps.natAbs
          { s with gamePhase := "player_moving_animation",
                   lastPlayerPositionBeforeThisMove := s.playerPosition
          }).1.playerStage = s.playerStage := hstage
      rw [this]
      exact hcfg
    · exact movePlayerLand_inv g _
  · exact movePlayerLand_inv g _

theorem applyBossDamage_frame (v : ℕ) (t : GameState) :
    (applyBossDamage v t).currentBossMaxHP = t.currentBossMaxHP
    ∧ (applyBossDamage v t).currentDiceThrows = t.currentDiceThrows
    ∧ (applyBossDamage v t).gamePhase = t.gamePhase := by
  rw [applyBossDamage_shape]
  exact ⟨rfl, rfl, rfl⟩

/-- Logging a throw and applying its damage preserves the boss-display
invariant. -/
theorem throw_log_inv (v : ℕ) (t s : GameState)
    (hphase_t : t.gamePhase = s.gamePhase)
    (hthrows : t.currentDiceThrows = s.currentDiceThrows ++ [v])
    (hmax : t.currentBossMaxHP = s.currentBossMaxHP)
    (hHP : t.currentBossHP = s.currentBossHP)
    (hinv : bossInv s) : bossInv (applyBossDamage v t) := by
  intro h
  obtain ⟨hm, ht, hph⟩ := applyBossDamage_frame v t
  have hph2 : s.gamePhase = "boss_encounter" := by
    rw [← hphase_t, ← hph]
    exact h
  have hs := hinv hph2
  have hsum : (s.currentDiceThrows ++ [v]).sum = s.currentDiceThrows.sum + v := by
    simp
  rw [applyBossDamage_hp, hHP, hm, hmax, ht, hthrows, hsum]
  exact hp_update s.currentBossHP s.currentBossMaxHP s.currentDiceThrows.sum v hs

theorem rollDice_inv (g : ℕ → Frac) (k : ℕ) (idx : ℤ) (s : GameState)
    (hcfg : (STAGE_CONFIGS s.playerStage).isSome) (hinv : bossInv s) :
    bossInv (rollDice g k idx s).1 := by
  unfold rollDice
  split
  · split
    · exact hinv
    · split
      · exact hinv
      · rename_i b heq
        apply bossFreeResolve_inv
        exact throw_log_inv (ceilMul (g k) 6) _ s rfl rfl rfl rfl hinv
  · split
    · exact hinv
    · split
      · unfold rollMove
        exact movePlayer_inv g _ _ _ hcfg
      · unfold rollMove
        exact movePlayer_inv g _ _ _ hcfg

theorem rollDiceForBoss_inv (g : ℕ → Frac) (k : ℕ) (d : Die) (s : GameState)
    (hinv : bossInv s) : bossInv (rollDiceForBoss g k d s).1 := by
  unfold rollDiceForBoss
  split
  · exact hinv
  · split
    · exact hinv
    · rename_i b heq
      apply bossBagResolve_inv
      exact throw_log_inv (bossRoll g k d).1 _ s rfl rfl rfl rfl hinv

theorem payToDefeatBoss_inv (g : ℕ → Frac) (k : ℕ) (s : GameState)
    (hinv : bossInv s) : bossInv (payToDefeatBoss g k s).1 := by
  unfold payToDefeatBoss
  split
  · exact hinv
  · split
    · apply defeatBoss_inv
      intro h
      exact hinv h
    · exact hinv

theorem playerMakesChoice_inv (opt : ChoiceOption) (s : GameState)
    (hinv : bossInv s) : bossInv (playerMakesChoice opt s) := by
  unfold playerMakesChoice
  split
  · exact hinv
  · intro h
    exact absurd (show ("rolling" : String) = "boss_encounter" from h) (by decide)

theorem setupStage_inv (g : ℕ → Frac) (k : ℕ) (s : GameState) :
    bossInv (setupStage g k s).1 := by
  intro h
  rw [setupStage_shape] at h
  exact absurd (show ("rolling" : String) = "boss_encounter" from h) (by decide)

theorem initializeGame_inv (g : ℕ → Frac) (k : ℕ) (s : GameState) :
    bossInv (initializeGame g k s).1 := by
  unfold initializeGame initializeGameFinish
  split
  · intro h
    exact absurd (show ("rolling" : String) = "boss_encounter" from h) (by decide)
  · rename_i h2
    intro h
    rw [setupStage_shape] at h
    exact absurd (show ("rolling" : String) = "boss_encounter" from h) (by decide)

theorem resetGame_inv (g : ℕ → Frac) (k : ℕ) (s : GameState) :
    bossInv (resetGame g k s).1 := by
  unfold resetGame
  exact setupStage_inv g k _

theorem advanceStage_inv (g : ℕ → Frac) (k : ℕ) (s : GameState) :
    bossInv (advanceStage g k s).1 := by
  unfold advanceStage
  split
  · intro h
    exact absurd (show ("game_won" : String) = "boss_encounter" from h) (by decide)
  · exact setupStage_inv g k _

theorem addReservedDie_inv (d : Die) (s : GameState) (hinv : bossInv s) :
    bossInv (addReservedDie d s) := by
  unfold addReservedDie
  split
  · intro h
    exact hinv h
  · exact hinv

/-- **C10**: the boss-display invariant — during a boss encounter
`currentBossHP = currentBossMaxHP - sum currentDiceThrows` (possibly
negative on overkill) — is preserved by every engine action, provided the
current stage has a configuration (it is established by
`handleBossEncounter` when an encounter starts). -/
theorem C10_boss_hp_tracks_throws (g : ℕ → Frac) (k : ℕ) (a : Action)
    (s : GameState) (hcfg : (STAGE_CONFIGS s.playerStage).isSome)
    (hinv : bossInv s) : bossInv (step g k a s).1 := by
  cases a with
  | initializeGame => exact initializeGame_inv g k _
  | resetGame => exact resetGame_inv g k s
  | rollDice idx => exact rollDice_inv g k idx s hcfg hinv
  | rollDiceForBoss d => exact rollDiceForBoss_inv g k d s hinv
  | playerMakesChoice opt => exact playerMakesChoice_inv opt s hinv
  | payToDefeatBoss => exact payToDefeatBoss_inv g k s hinv
  | addReservedDie d => exact addReservedDie_inv d s hinv
  | advanceStage => exact advanceStage_inv g k s

/-- Witness for C10: a bag-die throw in the test encounter keeps the
displayed hp in sync with the log. -/
theorem C10_boss_hp_tracks_throws_witness :
    bossInv (step zeroRng 0 (Action.rollDiceForBoss (Die.fixed 4))
      { bossState with reservedDice := [Die.fixed 4] }).1 :=
  C10_boss_hp_tracks_throws zeroRng 0 (Action.rollDiceForBoss (Die.fixed 4))
    { bossState with reservedDice := [Die.fixed 4] } (by decide) (by decide)

/-! ## C3: lap completion during movement -/

theorem totalBoardSquares_congr (a b : GameState)
    (h : a.currentStageConfig = b.currentStageConfig) :
    totalBoardSquares a = totalBoardSquares b := by
  unfold totalBoardSquares
  rw [h]

/-- A forward move that reaches square 0 within its step budget: the lap is
incremented once and the loop leaves either into the boss encounter (when
the new lap completes the stage) or by the `break`, parked on square 0. -/
theorem moveLoop_cross (g : ℕ → Frac) : ∀ (n k : ℕ) (s : GameState),
    s.isGameOver = false →
    s.playerPosition < totalBoardSquares s →
    totalBoardSquares s ≤ s.playerPosition + n →
    (s.playerLap + 1 = s.currentStageConfig.lapsToComplete →
      (moveLoop g true k n s).2.2 = LoopExit.bossReturn
      ∧ (moveLoop g true k n s).1.playerLap = s.playerLap + 1
      ∧ (moveLoop g true k n s).1.gamePhase = "boss_encounter")
    ∧ (s.playerLap + 1 ≠ s.currentStageConfig.lapsToComplete →
      (moveLoop g true k n s).2.2 = LoopExit.brokeAtStart
      ∧ (moveLoop g true k n s).1.playerPosition = 0
      ∧ (moveLoop g true k n s).1.playerLap = s.playerLap + 1
      ∧ (moveLoop g true k n s).1.currentStageConfig = s.currentStageConfig) := by
  intro n
  induction n with
  | zero =>
    intro k s hgo hpos hcross
    omega
  | succ m ih =>
    intro k s hgo hpos hcross
    unfold moveLoop
    split
    · rename_i h
      rw [hgo] at h
      cases h
    · rw [if_pos rfl]
      split
      · rename_i h0
        split
        · rename_i hlap
          constructor
          · intro _
            refine ⟨rfl, ?_, ?_⟩
            · rw [(handleBossEncounter_frame _).2.2.2.2.1]
            · rcases handleBossEncounter_shape
                { s with playerPosition := (s.playerPosition + 1) % totalBoardSquares s,
                         playerLap := s.playerLap + 1,
                         gamePhase := "boss_encounter", isAnimating := false } with h | h
              · rw [h]
              · exact h.1
          · intro hne
            exact absurd hlap hne
        · rename_i hlap
          constructor
          · intro heq
            exact absurd heq hlap
          · intro _
            refine ⟨rfl, ?_, ?_, ?_⟩
            · show (setupLapEffects g k _).1.playerPosition = 0
              rw [setupLapEffects_shape]
              exact h0
            · show (setupLapEffects g k _).1.playerLap = s.playerLap + 1
              rw [setupLapEffects_shape]
            · show (setupLapEffects g k _).1.currentStageConfig = s.currentStageConfig
              rw [setupLapEffects_shape]
      · rename_i h0
        have hT : 0 < totalBoardSquares s := by omega
        have hlt : s.playerPosition + 1 < totalBoardSquares s := by
          by_cases hpe : s.playerPosition + 1 = totalBoardSquares s
          · exact absurd (by rw [hpe, Nat.mod_self]) h0
          · omega
        have hmodval : (s.playerPosition + 1) % totalBoardSquares s
            = s.playerPosition + 1 := Nat.mod_eq_of_lt hlt
        have hcfg' : (stepCredit { s with playerPosition :=
            (s.playerPosition + 1) % totalBoardSquares s }).currentStageConfig
            = s.currentStageConfig := by
          rw [stepCredit_shape]
        have hT' := totalBoardSquares_congr _ s hcfg'
        have hgo' : (stepCredit { s with playerPosition :=
            (s.playerPosition + 1) % totalBoardSquares s }).isGameOver = false := by
          rw [stepCredit_shape]
          exact hgo
        have hpos' : (stepCredit { s with playerPosition :=
            (s.playerPosition + 1) % totalBoardSquares s }).playerPosition
            = s.playerPosition + 1 := by
          rw [stepCredit_shape]
          exact hmodval
        have hlap' : (stepCredit { s with playerPosition :=
            (s.playerPosition + 1) % totalBoardSquares s }).playerLap
            = s.playerLap := by
          rw [stepCredit_shape]
        obtain ⟨ihA, ihB⟩ := ih k
          (stepCredit { s with playerPosition :=
            (s.playerPosition + 1) % totalBoardSquares s })
          hgo' (by omega) (by omega)
        rw [hlap', hcfg'] at ihA ihB
        exact ⟨ihA, ihB⟩

theorem movePlayerLand_frame (g : ℕ → Frac) (r : GameState × ℕ) :
    (movePlayerLand g r).1.playerPosition = r.1.playerPosition
    ∧ (movePlayerLand g r).1.playerLap = r.1.playerLap := by
  unfold movePlayerLand movePlayerEnd
  have hs := handleSquareLanding_shape g r.2 { r.1 with gamePhase := "landed" }
  split
  · rw [hs]
    exact ⟨rfl, rfl⟩
  · split
    · rw [hs]
      exact ⟨rfl, rfl⟩
    · split
      · rw [hs]
        exact ⟨rfl, rfl⟩
      · rw [hs]
        exact ⟨rfl, rfl⟩

/-- **C3, counterexample**: on the fresh test stage (8 squares, 3 laps),
a forward roll of 3 from square 7 steps onto square 0, increments the lap
to 2 (< 3), and movement stops there: the two remaining steps are
discarded instead of being walked, and no boss encounter starts. -/
theorem C3_counterexample :
    (movePlayer zeroRng 100 3
        { (setupStage zeroRng 0 testState).1 with
            playerPosition := 7 }).1.playerPosition = 0
    ∧ (movePlayer zeroRng 100 3
        { (setupStage zeroRng 0 testState).1 with
            playerPosition := 7 }).1.playerLap = 2
    ∧ (movePlayer zeroRng 100 3
        { (setupStage zeroRng 0 testState).1 with
            playerPosition := 7 }).1.gamePhase = "rolling" := by
  refine ⟨?_, ?_, ?_⟩
  all_goals decide

/-- **C3, amended**: during a forward move, the step that lands on board
index 0 increments `playerLap`; if the new lap count equals
`lapsToComplete`, movement terminates into the boss encounter; otherwise
lap effects are reassigned and movement also terminates on square 0 — the
remaining steps of the roll are discarded in both cases (the loop
`break`s on square 0). -/
theorem C3_lap_rollover_amended (g : ℕ → Frac) (k : ℕ) (steps : ℤ)
    (s : GameState)
    (hgo : s.isGameOver = false)
    (hpos : s.playerPosition < totalBoardSquares s)
    (hsteps : 0 < steps)
    (hcross : totalBoardSquares s ≤ s.playerPosition + steps.natAbs) :
    (s.playerLap + 1 = s.currentStageConfig.lapsToComplete →
      (movePlayer g k steps s).1.gamePhase = "boss_encounter"
      ∧ (movePlayer g k steps s).1.playerLap = s.playerLap + 1)
    ∧ (s.playerLap + 1 ≠ s.currentStageConfig.lapsToComplete →
      (movePlayer g k steps s).1.playerPosition = 0
      ∧ (movePlayer g k steps s).1.playerLap = s.playerLap + 1) := by
  have hfwd : decide (steps > 0) = true := decide_eq_true hsteps
  unfold movePlayer movePlayerPost
  rw [hfwd]
  obtain ⟨hA, hB⟩ := moveLoop_cross g steps.natAbs k
    { s with gamePhase := "player_moving_animation",
             lastPlayerPositionBeforeThisMove := s.playerPosition }
    hgo hpos hcross
  constructor
  · intro hlap
    obtain ⟨he, hl, hph⟩ := hA hlap
    split
    · exact ⟨hph, hl⟩
    · rename_i heq
      rw [he] at heq
      cases heq
    · rename_i heq
      rw [he] at heq
      cases heq
  · intro hlap
    obtain ⟨he, hp0, hl, hcfg⟩ := hB hlap
    split
    · rename_i heq
      rw [he] at heq
      cases heq
    · -- broke at square 0: the post-loop re-check of the lap is false
      rw [if_neg (by rw [hl, hcfg]; exact hlap)]
      obtain ⟨hq1, hq2⟩ := movePlayerLand_frame g
        (setupLapEffects g
          (moveLoop g true k steps.natAbs
            { s with gamePhase := "player_moving_animation",
                     lastPlayerPositionBeforeThisMove := s.playerPosition }).2.1
          (moveLoop g true k steps.natAbs
            { s with gamePhase := "player_moving_animation",
                     lastPlayerPositionBeforeThisMove := s.playerPosition }).1)
      rw [hq1, hq2, setupLapEffects_shape]
      exact ⟨hp0, hl⟩
    · rename_i heq
      rw [he] at heq
      cases heq

/-- Witness for C3 (amended): both branches at concrete states — lap 2 of 3
(movement stops on square 0) and lap 2 of `lapsToComplete = 3` reaching the
final lap (boss encounter). -/
theorem C3_lap_rollover_amended_witness :
    ((({ (setupStage zeroRng 0 testState).1 with
          playerPosition := 7 } : GameState).playerLap + 1
        = ({ (setupStage zeroRng 0 testState).1 with
            playerPosition := 7 } : GameState).currentStageConfig.lapsToComplete →
      (movePlayer zeroRng 100 3
        { (setupStage zeroRng 0 testState).1 with
            playerPosition := 7 }).1.gamePhase = "boss_encounter"
      ∧ (movePlayer zeroRng 100 3
          { (setupStage zeroRng 0 testState).1 with
              playerPosition := 7 }).1.playerLap
        = ({ (setupStage zeroRng 0 testState).1 with
            playerPosition := 7 } : GameState).playerLap + 1)
    ∧ (({ (setupStage zeroRng 0 testState).1 with
          playerPosition := 7 } : GameState).playerLap + 1
        ≠ ({ (setupStage zeroRng 0 testState).1 with
            playerPosition := 7 } : GameState).currentStageConfig.lapsToComplete →
      (movePlayer zeroRng 100 3
        { (setupStage zeroRng 0 testState).1 with
            playerPosition := 7 }).1.playerPosition = 0
      ∧ (movePlayer zeroRng 100 3
          { (setupStage zeroRng 0 testState).1 with
              playerPosition := 7 }).1.playerLap
        = ({ (setupStage zeroRng 0 testState).1 with
            playerPosition := 7 } : GameState).playerLap + 1)) :=
  C3_lap_rollover_amended zeroRng 100 3
    { (setupStage zeroRng 0 testState).1 with playerPosition := 7 }
    (by decide) (by decide) (by decide) (by decide)

/-! ## C6: the normal-money pass-over credit -/

/-- The per-step pass-over credit of the movement loop: the amount of an
in-range `normal_money` square with a truthy amount, else nothing — the
condition of the loop body's crediting branch. -/
def creditAmount (board : List Square) (pos : ℕ) : ℤ :=
  if pos < board.length ∧
      (board.getD pos default).currentEffectType = EffectType.normal_money ∧
      (amountOf (board.getD pos default)).isSome then
    (amountOf (board.getD pos default)).getD 0
  else 0

theorem stepCredit_money (s : GameState) :
    (stepCredit s).playerMoney
      = s.playerMoney + creditAmount s.boardSquares s.playerPosition := by
  unfold stepCredit creditAmount
  split
  · rfl
  · exact (add_zero s.playerMoney).symm

/-- A forward move that never reaches square 0 credits exactly the sum of
the `normal_money` amounts of the squares it steps onto, one credit per
step, and leaves the board untouched. -/
theorem moveLoop_forward_money (g : ℕ → Frac) : ∀ (n k : ℕ) (s : GameState),
    s.isGameOver = false →
    s.playerPosition + n < totalBoardSquares s →
    (moveLoop g true k n s).1.playerMoney
      = s.playerMoney + ∑ j ∈ Finset.range n,
          creditAmount s.boardSquares (s.playerPosition + 1 + j)
    ∧ (moveLoop g true k n s).1.playerPosition = s.playerPosition + n
    ∧ (moveLoop g true k n s).1.boardSquares = s.boardSquares := by
  intro n
  induction n with
  | zero =>
    intro k s hgo hlt
    refine ⟨?_, rfl, rfl⟩
    show s.playerMoney = s.playerMoney + ∑ j ∈ Finset.range 0,
      creditAmount s.boardSquares (s.playerPosition + 1 + j)
    simp
  | succ m ih =>
    intro k s hgo hlt
    have hT : 0 < totalBoardSquares s := by omega
    have hlt1 : s.playerPosition + 1 < totalBoardSquares s := by omega
    have hmod : (s.playerPosition + 1) % totalBoardSquares s
        = s.playerPosition + 1 := Nat.mod_eq_of_lt hlt1
    unfold moveLoop
    split
    · rename_i h
      rw [hgo] at h
      cases h
    · rw [if_pos rfl, if_neg (by rw [hmod]; omega)]
      have hb' : (stepCredit { s with playerPosition :=
          (s.playerPosition + 1) % totalBoardSquares s }).boardSquares
          = s.boardSquares := by
        rw [stepCredit_shape]
      have hp' : (stepCredit { s with playerPosition :=
          (s.playerPosition + 1) % totalBoardSquares s }).playerPosition
          = s.playerPosition + 1 := by
        rw [stepCredit_shape]
        exact hmod
      have hgo' : (stepCredit { s with playerPosition :=
          (s.playerPosition + 1) % totalBoardSquares s }).isGameOver = false := by
        rw [stepCredit_shape]
        exact hgo
      have hcfg' : (stepCredit { s with playerPosition :=
          (s.playerPosition + 1) % totalBoardSquares s }).currentStageConfig
          = s.currentStageConfig := by
        rw [stepCredit_shape]
      have hT' := totalBoardSquares_congr _ s hcfg'
      have hm' : (stepCredit { s with playerPosition :=
          (s.playerPosition + 1) % totalBoardSquares s }).playerMoney
          = s.playerMoney + creditAmount s.boardSquares (s.playerPosition + 1) := by
        rw [stepCredit_money]
        show s.playerMoney + creditAmount s.boardSquares
            ((s.playerPosition + 1) % totalBoardSquares s)
          = s.playerMoney + creditAmount s.boardSquares (s.playerPosition + 1)
        rw [hmod]
      obtain ⟨ihm, ihp, ihb⟩ := ih k
        (stepCredit { s with playerPosition :=
          (s.playerPosition + 1) % totalBoardSquares s })
        hgo' (by omega)
      refine ⟨?_, ?_, ?_⟩
      · rw [ihm, hm', hb', hp', Finset.sum_range_succ']
        have hsum : ∑ j ∈ Finset.range m,
            creditAmount s.boardSquares (s.playerPosition + 1 + 1 + j)
            = ∑ j ∈ Finset.range m,
              creditAmount s.boardSquares (s.playerPosition + 1 + (j + 1)) :=
          Finset.sum_congr rfl (fun j _ =>
            congrArg (creditAmount s.boardSquares) (by omega))
        rw [hsum]
        simp only [Nat.add_zero]
        omega
      · rw [ihp, hp']
        omega
      · rw [ihb, hb']

/-- Reverse movement never touches the player's money. -/
theorem moveLoop_reverse_money (g : ℕ → Frac) : ∀ (n k : ℕ) (s : GameState),
    (moveLoop g false k n s).1.playerMoney = s.playerMoney := by
  intro n
  induction n with
  | zero =>
    intro k s
    rfl
  | succ m ih =>
    intro k s
    unfold moveLoop
    split
    · rfl
    · rw [if_neg Bool.false_ne_true]
      exact ih k _

/-- Landing resolution on a `normal_money` square off the bottom-right
corner leaves the money untouched: the landing dispatch has no
`normal_money` arm. -/
theorem handleSquareLanding_normal_money (g : ℕ → Frac) (k : ℕ) (s : GameState)
    (heff : (s.boardSquares.getD s.playerPosition default).currentEffectType
      = EffectType.normal_money)
    (hbr : (s.boardSquares.getD s.playerPosition default).baseType
      ≠ BaseType.corner_br) :
    (handleSquareLanding g k s).1.playerMoney = s.playerMoney := by
  unfold handleSquareLanding
  split
  · rfl
  · split
    · rfl
    · unfold landingDispatch
      rw [heff]
      show (cornerTax (s.boardSquares.getD s.playerPosition default) s).playerMoney
        = s.playerMoney
      unfold cornerTax
      rw [if_neg hbr]

/-- **C6**: a `normal_money` square is credited once per forward step that
steps onto it (the loop's per-step credit, summed over the steps of the
move), a reverse move credits nothing, and the landing resolution applies
no further money on a `normal_money` square (off the taxed bottom-right
corner), so the per-step credit is never double-counted on the final
landing. -/
theorem C6_normal_money_single_credit (g : ℕ → Frac) (k n : ℕ) (s : GameState) :
    (s.isGameOver = false →
      s.playerPosition + n < totalBoardSquares s →
      (moveLoop g true k n s).1.playerMoney
        = s.playerMoney + ∑ j ∈ Finset.range n,
            creditAmount s.boardSquares (s.playerPosition + 1 + j))
    ∧ (moveLoop g false k n s).1.playerMoney = s.playerMoney
    ∧ ((s.boardSquares.getD s.playerPosition default).currentEffectType
          = EffectType.normal_money →
        (s.boardSquares.getD s.playerPosition default).baseType
          ≠ BaseType.corner_br →
        (handleSquareLanding g k s).1.playerMoney = s.playerMoney) :=
  ⟨fun h1 h2 => (moveLoop_forward_money g n k s h1 h2).1,
   moveLoop_reverse_money g n k s,
   fun h1 h2 => handleSquareLanding_normal_money g k s h1 h2⟩

/-- A three-square strip whose middle square pays `normal_money` 7. -/
def moneyBoard : List Square :=
  [{ id := 0, baseType := BaseType.normal, currentEffectType := EffectType.none,
     isTempBad := false, effectDetails := Option.none },
   { id := 1, baseType := BaseType.normal,
     currentEffectType := EffectType.normal_money, isTempBad := false,
     effectDetails := Option.some (EffectDetails.amount 7) },
   { id := 2, baseType := BaseType.normal, currentEffectType := EffectType.none,
     isTempBad := false, effectDetails := Option.none }]

def moneyState : GameState :=
  { testState with boardSquares := moneyBoard }

/-- Witness for C6: on the three-square strip, a two-step forward move
earns the strip's per-step credits, a two-step reverse move earns nothing,
and landing on the `normal_money` square itself adds no money. -/
theorem C6_normal_money_single_credit_witness :
    ((moveLoop zeroRng true 40 2 moneyState).1.playerMoney
      = moneyState.playerMoney + ∑ j ∈ Finset.range 2,
          creditAmount moneyState.boardSquares (moneyState.playerPosition + 1 + j))
    ∧ (moveLoop zeroRng false 40 2 moneyState).1.playerMoney
        = moneyState.playerMoney
    ∧ (handleSquareLanding zeroRng 41
        { moneyState with playerPosition := 1 }).1.playerMoney
      = ({ moneyState with playerPosition := 1 } : GameState).playerMoney :=
  ⟨(C6_normal_money_single_credit zeroRng 40 2 moneyState).1 (by decide) (by decide),
   (C6_normal_money_single_credit zeroRng 40 2 moneyState).2.1,
   (C6_normal_money_single_credit zeroRng 41 2
      { moneyState with playerPosition := 1 }).2.2 (by decide) (by decide)⟩

/-! ## C5: out-of-range bag index -/

/-- No branch of the movement loop touches the dice bag. -/
theorem moveLoop_bag (g : ℕ → Frac) (fwd : Bool) : ∀ (n k : ℕ) (s : GameState),
    (moveLoop g fwd k n s).1.reservedDice = s.reservedDice := by
  intro n
  induction n with
  | zero =>
    intro k s
    rfl
  | succ m ih =>
    intro k s
    unfold moveLoop
    split
    · rfl
    · split
      · split
        · split
          · exact (handleBossEncounter_frame _).2.2.1
          · show (setupLapEffects g k _).1.reservedDice = s.reservedDice
            rw [setupLapEffects_shape]
        · refine (ih k _).trans ?_
          rw [stepCredit_shape]
      · exact ih k _

/-- The landing resolution and end-of-turn bookkeeping never touch the
dice bag. -/
theorem movePlayerLand_bag (g : ℕ → Frac) (r : GameState × ℕ) :
    (movePlayerLand g r).1.reservedDice = r.1.reservedDice := by
  unfold movePlayerLand movePlayerEnd
  have hb : (handleSquareLanding g r.2
      { r.1 with gamePhase := "landed" }).1.reservedDice = r.1.reservedDice := by
    rw [handleSquareLanding_shape]
  split
  · exact hb
  · split
    · exact hb
    · split
      · exact hb
      · exact hb

/-- Movement never consumes or grants a bag die. -/
theorem movePlayer_bag (g : ℕ → Frac) (k : ℕ) (steps : ℤ) (s : GameState) :
    (movePlayer g k steps s).1.reservedDice = s.reservedDice := by
  unfold movePlayer movePlayerPost
  split
  · exact moveLoop_bag g _ _ _ _
  · split
    · exact ((handleBossEncounter_frame _).2.2.1).trans (moveLoop_bag g _ _ _ _)
    · refine (movePlayerLand_bag g _).trans ?_
      rw [setupLapEffects_shape]
      exact moveLoop_bag g _ _ _ _
  · exact (movePlayerLand_bag g _).trans (moveLoop_bag g _ _ _ _)

/-- **C5, counterexample**: on the fresh test stage (`rolling` phase, empty
bag, so index 5 is out of range), `rollDice` with bag index 5 is not a
no-op — the player moves to square 1. -/
theorem C5_counterexample :
    ((5 : ℤ) < 0
      ∨ ((setupStage zeroRng 0 testState).1.reservedDice.length : ℤ) ≤ 5)
    ∧ (setupStage zeroRng 0 testState).1.gamePhase = "rolling"
    ∧ (setupStage zeroRng 0 testState).1.playerPosition = 0
    ∧ (rollDice zeroRng 100 5
        (setupStage zeroRng 0 testState).1).1.playerPosition = 1 := by
  refine ⟨?_, ?_, ?_, ?_⟩
  all_goals decide

/-- **C5, amended**: an out-of-range bag index is not rejected — it falls
through to the no-index branch, so the call behaves exactly like rolling
the free ephemeral Normal die (`rollDice(-1)`); in the rolling phase no
bag die is consumed, but the roll proceeds and the state mutates as a
normal move. -/
theorem C5_out_of_range_index_amended (g : ℕ → Frac) (k : ℕ) (idx : ℤ)
    (s : GameState)
    (hidx : idx < 0 ∨ (s.reservedDice.length : ℤ) ≤ idx) :
    rollDice g k idx s = rollDice g k (-1) s
    ∧ (s.gamePhase = "rolling" → s.isGameOver = false → s.isAnimating = false →
        (rollDice g k idx s).1.reservedDice = s.reservedDice) := by
  have hc3 : ¬(0 ≤ idx ∧ idx < (s.reservedDice.length : ℤ)) := by
    rcases hidx with h | h
    · omega
    · omega
  constructor
  · have hc4 : ¬(0 ≤ (-1 : ℤ) ∧ (-1 : ℤ) < (s.reservedDice.length : ℤ)) := by
      omega
    unfold rollDice
    rw [if_neg hc3, if_neg hc4]
  · intro hph hgo hanim
    have hc1 : ¬(s.gamePhase = "boss_encounter") := by
      rw [hph]
      decide
    have hguard : ¬(s.isGameOver = true ∨ s.gamePhase ≠ "rolling"
        ∨ s.isAnimating = true) := by
      rw [hph, hgo, hanim]
      decide
    unfold rollDice
    rw [if_neg hc1, if_neg hguard, if_neg hc3]
    unfold rollMove
    exact movePlayer_bag g _ _ _

/-- Witness for C5 (amended): index 5 on the fresh test stage (empty bag)
behaves exactly like `rollDice(-1)` and consumes no bag die. -/
theorem C5_out_of_range_index_amended_witness :
    rollDice zeroRng 100 5 (setupStage zeroRng 0 testState).1
      = rollDice zeroRng 100 (-1) (setupStage zeroRng 0 testState).1
    ∧ (rollDice zeroRng 100 5 (setupStage zeroRng 0 testState).1).1.reservedDice
      = (setupStage zeroRng 0 testState).1.reservedDice :=
  ⟨(C5_out_of_range_index_amended zeroRng 100 5
      (setupStage zeroRng 0 testState).1 (by decide)).1,
   (C5_out_of_range_index_amended zeroRng 100 5
      (setupStage zeroRng 0 testState).1 (by decide)).2
    (by decide) (by decide) (by decide)⟩

/-! ## C9: the lap-effect assignment invariants

The pipeline of `setupLapEffects` named stage by stage, so its intermediate
boards and id pools can be reasoned about. -/

def slBoard0 (s : GameState) : List Square := s.boardSquares.map resetSquare

def slS0 (s : GameState) : GameState := { s with boardSquares := slBoard0 s }

def slCand (s : GameState) : List ℕ := candidateSquareIds (slS0 s)

def slShuffled (g : ℕ → Frac) (k : ℕ) (s : GameState) : List ℕ :=
  (shuffleArray g k (slCand s)).1

def slK1 (g : ℕ → Frac) (k : ℕ) (s : GameState) : ℕ :=
  (shuffleArray g k (slCand s)).2

def slNumBad (g : ℕ → Frac) (k : ℕ) (s : GameState) : ℕ :=
  getRandomInt (g (slK1 g k s)) s.currentStageConfig.minBadSquares
    s.currentStageConfig.maxBadSquares

def slBadIds (g : ℕ → Frac) (k : ℕ) (s : GameState) : List ℕ :=
  (popN (slNumBad g k s) (slShuffled g k s)).1

def slRem1 (g : ℕ → Frac) (k : ℕ) (s : GameState) : List ℕ :=
  (popN (slNumBad g k s) (slShuffled g k s)).2

def slBoard1 (g : ℕ → Frac) (k : ℕ) (s : GameState) : List Square :=
  (assignBadSquares g s.playerStage (slK1 g k s + 1) (slBadIds g k s)
    (slBoard0 s)).1

def slK2 (g : ℕ → Frac) (k : ℕ) (s : GameState) : ℕ :=
  (assignBadSquares g s.playerStage (slK1 g k s + 1) (slBadIds g k s)
    (slBoard0 s)).2

def slNumDM (g : ℕ → Frac) (k : ℕ) (s : GameState) : ℕ :=
  getRandomInt (g (slK2 g k s)) s.currentStageConfig.minChoiceDiceMoneySquares
    s.currentStageConfig.maxChoiceDiceMoneySquares

def slDmIds (g : ℕ → Frac) (k : ℕ) (s : GameState) : List ℕ :=
  (popN (slNumDM g k s) (slRem1 g k s)).1

def slRem2 (g : ℕ → Frac) (k : ℕ) (s : GameState) : List ℕ :=
  (popN (slNumDM g k s) (slRem1 g k s)).2

def slBoard2 (g : ℕ → Frac) (k : ℕ) (s : GameState) : List Square :=
  assignEffect EffectType.choice_dice_money (slDmIds g k s) (slBoard1 g k s)

def slNumPD (g : ℕ → Frac) (k : ℕ) (s : GameState) : ℕ :=
  getRandomInt (g (slK2 g k s + 1)) s.currentStageConfig.minChoicePickDieSquares
    s.currentStageConfig.maxChoicePickDieSquares

def slPdIds (g : ℕ → Frac) (k : ℕ) (s : GameState) : List ℕ :=
  (popN (slNumPD g k s) (slRem2 g k s)).1

def slRem3 (g : ℕ → Frac) (k : ℕ) (s : GameState) : List ℕ :=
  (popN (slNumPD g k s) (slRem2 g k s)).2

def slBoard3 (g : ℕ → Frac) (k : ℕ) (s : GameState) : List Square :=
  assignEffect EffectType.choice_pick_die (slPdIds g k s) (slBoard2 g k s)

def slBoard4 (g : ℕ → Frac) (k : ℕ) (s : GameState) : List Square :=
  (assignMoneySquares g (currentHugeMoneyValue s : ℤ)
    s.currentStageConfig.moneyMultiplier (slK2 g k s + 2) (slRem3 g k s)
    (slBoard3 g k s)).1

theorem setupLapEffects_board (g : ℕ → Frac) (k : ℕ) (s : GameState) :
    (setupLapEffects g k s).1.boardSquares = slBoard4 g k s := rfl

/-- The identity, base type and current effect of a square — everything the
assignment passes are tracked by. -/
def sqKey (sq : Square) : ℕ × BaseType × EffectType :=
  (sq.id, sq.baseType, sq.currentEffectType)

theorem assignEffect_key (eff : EffectType) : ∀ (ids : List ℕ)
    (board : List Square),
    (assignEffect eff ids board).map sqKey
      = board.map (fun sq => (sq.id, sq.baseType,
          if sq.id ∈ ids then eff else sq.currentEffectType)) := by
  intro ids
  induction ids with
  | nil =>
    intro board
    show board.map sqKey = _
    refine List.map_congr_left ?_
    intro sq _
    simp [sqKey]
  | cons id rest ih =>
    intro board
    show (assignEffect eff rest (setSquareEffect board id
      (fun sq => { sq with currentEffectType := eff }))).map sqKey = _
    rw [ih]
    unfold setSquareEffect
    rw [List.map_map]
    refine List.map_congr_left ?_
    intro sq _
    by_cases h1 : sq.id = id
    · by_cases h2 : sq.id ∈ rest
      · simp [Function.comp, h1, h2]
      · simp [Function.comp, h1, h2]
    · by_cases h2 : sq.id ∈ rest
      · simp [Function.comp, h1, h2]
      · simp [Function.comp, h1, h2]

theorem assignBadSquares_key (g : ℕ → Frac) (stage : ℕ) : ∀ (ids : List ℕ)
    (k : ℕ) (board : List Square),
    (assignBadSquares g stage k ids board).1.map sqKey
      = board.map (fun sq => (sq.id, sq.baseType,
          if sq.id ∈ ids then EffectType.temp_bad_lap
          else sq.currentEffectType)) := by
  intro ids
  induction ids with
  | nil =>
    intro k board
    show board.map sqKey = _
    refine List.map_congr_left ?_
    intro sq _
    simp [sqKey]
  | cons id rest ih =>
    intro k board
    show (assignBadSquares g stage (k + 1) rest (setSquareEffect board id
      _)).1.map sqKey = _
    rw [ih]
    unfold setSquareEffect
    rw [List.map_map]
    refine List.map_congr_left ?_
    intro sq _
    by_cases h1 : sq.id = id
    · by_cases h2 : sq.id ∈ rest
      · simp [Function.comp, h1, h2]
      · simp [Function.comp, h1, h2]
    · by_cases h2 : sq.id ∈ rest
      · simp [Function.comp, h1, h2]
      · simp [Function.comp, h1, h2]

theorem assignMoneySquares_key (g : ℕ → Frac) (hugeVal : ℤ) (mult : Frac) :
    ∀ (ids : List ℕ) (k : ℕ) (board : List Square),
    ∃ eff : ℕ → EffectType,
      (∀ i, eff i = EffectType.huge_money ∨ eff i = EffectType.normal_money)
      ∧ (assignMoneySquares g hugeVal mult k ids board).1.map sqKey
        = board.map (fun sq => (sq.id, sq.baseType,
            if sq.id ∈ ids then eff sq.id else sq.currentEffectType)) := by
  intro ids
  induction ids with
  | nil =>
    intro k board
    refine ⟨fun _ => EffectType.huge_money, fun _ => Or.inl rfl, ?_⟩
    show board.map sqKey = _
    refine List.map_congr_left ?_
    intro sq _
    simp [sqKey]
  | cons id rest ih =>
    intro k board
    by_cases hc : fracLt (g k) 15 100
    · obtain ⟨eff1, hval1, heq1⟩ := ih (k + 1)
        (setSquareEffect board id (fun sq =>
          { sq with currentEffectType := EffectType.huge_money,
                    effectDetails := Option.some (EffectDetails.amount hugeVal) }))
      refine ⟨fun i => if i ∈ rest then eff1 i else EffectType.huge_money,
        ?_, ?_⟩
      · intro i
        by_cases h : i ∈ rest
        · simpa [h] using hval1 i
        · simp [h]
      · unfold assignMoneySquares
        rw [if_pos hc, heq1]
        unfold setSquareEffect
        rw [List.map_map]
        refine List.map_congr_left ?_
        intro sq _
        by_cases h1 : sq.id = id
        · by_cases h2 : sq.id ∈ rest
          · simp [Function.comp, h1, h2]
          · simp [Function.comp, h1, h2]
        · by_cases h2 : sq.id ∈ rest
          · simp [Function.comp, h1, h2]
          · simp [Function.comp, h1, h2]
    · obtain ⟨eff1, hval1, heq1⟩ := ih (k + 2)
        (setSquareEffect board id (fun sq =>
          { sq with currentEffectType := EffectType.normal_money,
                    effectDetails := Option.some (EffectDetails.amount
                      ((getRandomInt (g (k + 1)) 1 3 * mult.num
                        / mult.den : ℕ) : ℤ)) }))
      refine ⟨fun i => if i ∈ rest then eff1 i else EffectType.normal_money,
        ?_, ?_⟩
      · intro i
        by_cases h : i ∈ rest
        · simpa [h] using hval1 i
        · simp [h]
      · unfold assignMoneySquares
        rw [if_neg hc, heq1]
        unfold setSquareEffect
        rw [List.map_map]
        refine List.map_congr_left ?_
        intro sq _
        by_cases h1 : sq.id = id
        · by_cases h2 : sq.id ∈ rest
          · simp [Function.comp, h1, h2]
          · simp [Function.comp, h1, h2]
        · by_cases h2 : sq.id ∈ rest
          · simp [Function.comp, h1, h2]
          · simp [Function.comp, h1, h2]

theorem resetSquare_key (sq : Square) :
    (resetSquare sq).id = sq.id ∧ (resetSquare sq).baseType = sq.baseType := by
  unfold resetSquare
  split
  · exact ⟨rfl, rfl⟩
  · exact ⟨rfl, rfl⟩

theorem slBoard0_ids (s : GameState)
    (hids : s.boardSquares.map Square.id = List.range s.boardSquares.length) :
    (slBoard0 s).map Square.id = List.range ((slBoard0 s).length) := by
  unfold slBoard0
  rw [List.map_map, List.length_map, ← hids]
  refine List.map_congr_left ?_
  intro sq _
  exact (resetSquare_key sq).1

/-- The reset pass changes no id and no base type, so the candidate pool of
the reset board is the candidate pool of the incoming board. -/
theorem filter_map_comm {α β : Type} (f : α → β) (p : β → Bool) :
    ∀ l : List α, (l.map f).filter p = (l.filter (fun a => p (f a))).map f := by
  intro l
  induction l with
  | nil => rfl
  | cons a t ih =>
    simp only [List.map_cons, List.filter_cons]
    by_cases h : p (f a) = true
    · simp [h, ih]
    · simp [h, ih]

theorem slCand_eq (s : GameState) : slCand s = candidateSquareIds s := by
  show candidateSquareIds (slS0 s) = candidateSquareIds s
  unfold candidateSquareIds
  show ((slBoard0 s).filter _).map _ = _
  unfold slBoard0
  rw [filter_map_comm, List.map_map]
  have hfe : s.boardSquares.filter
      (fun sq => decide ((resetSquare sq).baseType = BaseType.normal
        ∧ (resetSquare sq).id ∉ cornerSquareIds (slS0 s)))
      = s.boardSquares.filter
        (fun sq => decide (sq.baseType = BaseType.normal
          ∧ sq.id ∉ cornerSquareIds s)) := by
    refine List.filter_congr ?_
    intro sq _
    rw [decide_eq_decide, (resetSquare_key sq).1, (resetSquare_key sq).2]
    exact Iff.rfl
  rw [hfe]
  refine List.map_congr_left ?_
  intro sq _
  exact (resetSquare_key sq).1

theorem slCand_nodup (s : GameState)
    (hids : s.boardSquares.map Square.id = List.range s.boardSquares.length) :
    (slCand s).Nodup := by
  have hnd : ((slBoard0 s).map Square.id).Nodup := by
    rw [slBoard0_ids s hids]
    exact List.nodup_range _
  have hsub : List.Sublist (slCand s) ((slBoard0 s).map Square.id) :=
    (List.filter_sublist (slBoard0 s)).map Square.id
  exact hnd.sublist hsub

theorem slCand_lt (s : GameState)
    (hids : s.boardSquares.map Square.id = List.range s.boardSquares.length) :
    ∀ i ∈ slCand s, i < s.boardSquares.length := by
  intro i hi
  have hsub : List.Sublist (slCand s) ((slBoard0 s).map Square.id) :=
    (List.filter_sublist (slBoard0 s)).map Square.id
  have hmem := hsub.subset hi
  rw [slBoard0_ids s hids] at hmem
  have h2 := List.mem_range.mp hmem
  simpa [slBoard0] using h2

/-- Every candidate id is the id of a `normal`-typed square of the reset
board. -/
theorem slCand_normal (s : GameState) : ∀ i ∈ slCand s,
    ∃ sq ∈ slBoard0 s, sq.id = i ∧ sq.baseType = BaseType.normal := by
  intro i hi
  have hi2 : i ∈ ((slBoard0 s).filter (fun sq =>
      decide (sq.baseType = BaseType.normal
        ∧ sq.id ∉ cornerSquareIds (slS0 s)))).map (fun sq => sq.id) := hi
  rw [List.mem_map] at hi2
  obtain ⟨sq, hsq, hid⟩ := hi2
  rw [List.mem_filter] at hsq
  obtain ⟨hmem, hp⟩ := hsq
  have hp2 := of_decide_eq_true hp
  exact ⟨sq, hmem, hid, hp2.1⟩

theorem slBoard0_id_inj (s : GameState)
    (hids : s.boardSquares.map Square.id = List.range s.boardSquares.length) :
    ∀ sq1 ∈ slBoard0 s, ∀ sq2 ∈ slBoard0 s, sq1.id = sq2.id → sq1 = sq2 := by
  have hnd : ((slBoard0 s).map Square.id).Nodup := by
    rw [slBoard0_ids s hids]
    exact List.nodup_range _
  intro sq1 h1 sq2 h2 heq
  exact List.inj_on_of_nodup_map hnd h1 h2 heq

/-- After the reset pass every square is effect-free (given that the
non-`normal` squares carried no effect to begin with). -/
theorem slBoard0_none (s : GameState)
    (hclean : ∀ sq ∈ s.boardSquares, sq.baseType ≠ BaseType.normal →
      sq.currentEffectType = EffectType.none) :
    ∀ sq ∈ slBoard0 s, sq.currentEffectType = EffectType.none := by
  intro sq hsq
  unfold slBoard0 at hsq
  rw [List.mem_map] at hsq
  obtain ⟨sq0, hsq0, rfl⟩ := hsq
  unfold resetSquare
  split
  · rfl
  · rename_i hnt
    exact hclean sq0 hsq0 hnt

/-- The structure of one pop pass on a duplicate-free pool: both halves are
duplicate-free sub-pools, they are disjoint, and their sizes are the drawn
quota capped by the pool (and the pool minus the quota). -/
theorem popN_split (n : ℕ) (l : List ℕ) (hnd : l.Nodup) :
    (popN n l).1.Nodup ∧ (popN n l).2.Nodup
    ∧ (∀ i ∈ (popN n l).1, i ∈ l)
    ∧ (∀ i ∈ (popN n l).2, i ∈ l)
    ∧ (∀ i ∈ (popN n l).1, i ∉ (popN n l).2)
    ∧ (popN n l).1.length = min n l.length
    ∧ (popN n l).2.length = l.length - n := by
  have h1 : (popN n l).1 = (l.drop (l.length - n)).reverse := by
    rw [popN_eq]
  have h2 : (popN n l).2 = l.take (l.length - n) := by
    rw [popN_eq]
  have hnd2 : (l.take (l.length - n) ++ l.drop (l.length - n)).Nodup := by
    rw [List.take_append_drop]
    exact hnd
  rw [List.nodup_append] at hnd2
  obtain ⟨hnt, hndr, hdisj⟩ := hnd2
  rw [h1, h2]
  refine ⟨List.nodup_reverse.mpr hndr, hnt, ?_, ?_, ?_, ?_, ?_⟩
  · intro i hi
    exact List.drop_subset _ _ (List.mem_reverse.mp hi)
  · intro i hi
    exact List.take_subset _ _ hi
  · intro i hi hmem
    exact hdisj hmem (List.mem_reverse.mp hi)
  · rw [List.length_reverse, List.length_drop]
    omega
  · rw [List.length_take]
    omega

/-- Counting board squares whose id lies in a duplicate-free id list: when
the board carries the ids `0..n-1` in order, the count is the length of the
list. -/
theorem countP_mem_ids (board : List Square) (ids : List ℕ)
    (hids : board.map Square.id = List.range board.length)
    (hnd : ids.Nodup) (hlt : ∀ i ∈ ids, i < board.length) :
    board.countP (fun sq => decide (sq.id ∈ ids)) = ids.length := by
  have h1 := List.countP_map (fun i => decide (i ∈ ids)) Square.id board
  rw [hids] at h1
  show List.countP ((fun i => decide (i ∈ ids)) ∘ Square.id) board = ids.length
  rw [← h1, List.countP_eq_length_filter]
  have hf1 : ((List.range board.length).filter
      (fun i => decide (i ∈ ids))).Nodup :=
    (List.nodup_range _).filter _
  have hsub1 : ((List.range board.length).filter
      (fun i => decide (i ∈ ids))) ⊆ ids := by
    intro i hi
    rw [List.mem_filter] at hi
    exact of_decide_eq_true hi.2
  have hsub2 : ids ⊆ (List.range board.length).filter
      (fun i => decide (i ∈ ids)) := by
    intro i hi
    rw [List.mem_filter]
    exact ⟨List.mem_range.mpr (hlt i hi), decide_eq_true hi⟩
  exact ((hf1.subperm hsub1).antisymm (hnd.subperm hsub2)).length_eq

/-- How many squares of a board carry the given dynamic effect. -/
def effectCount (board : List Square) (e : EffectType) : ℕ :=
  board.countP (fun sq => decide (sq.currentEffectType = e))

/-- How many squares of a board carry either money effect. -/
def moneyCount (board : List Square) : ℕ :=
  board.countP (fun sq => decide (sq.currentEffectType = EffectType.huge_money
    ∨ sq.currentEffectType = EffectType.normal_money))

/-- Composing an assignment pass (tracked through `sqKey`) with an already
established key description of the board. -/
theorem map_key_comp (base : List Square) (f : ℕ → EffectType → EffectType)
    (board : List Square)
    (hb : board.map sqKey = base.map (fun sq =>
      (sq.id, sq.baseType, f sq.id sq.currentEffectType)))
    (ids : List ℕ) (effOf : ℕ → EffectType) :
    board.map (fun sq => (sq.id, sq.baseType,
        if sq.id ∈ ids then effOf sq.id else sq.currentEffectType))
      = base.map (fun sq => (sq.id, sq.baseType,
          if sq.id ∈ ids then effOf sq.id else f sq.id sq.currentEffectType)) := by
  have h2 : board.map (fun sq => (sq.id, sq.baseType,
      if sq.id ∈ ids then effOf sq.id else sq.currentEffectType))
      = (board.map sqKey).map (fun t => (t.1, t.2.1,
          if t.1 ∈ ids then effOf t.1 else t.2.2)) := by
    rw [List.map_map]
    refine List.map_congr_left ?_
    intro sq _
    rfl
  rw [h2, hb, List.map_map]
  refine List.map_congr_left ?_
  intro sq _
  rfl

/-- **C9**: on a board whose squares carry the ids `0..n-1` and whose
non-`normal` (corner) squares carry no dynamic effect, `setupLapEffects`
leaves every corner square effect-free; it draws bad / dice-vs-money /
pick-a-die quotas inside their configured `[min, max]` bounds and marks
exactly that many squares (capped only by the shrinking candidate pool);
and the four categories are mutually exclusive — together they classify
every candidate square exactly once. -/
theorem C9_lap_effect_assignment (g : ℕ → Frac) (hg : RngValid g) (k : ℕ)
    (s : GameState)
    (hids : s.boardSquares.map Square.id = List.range s.boardSquares.length)
    (hclean : ∀ sq ∈ s.boardSquares, sq.baseType ≠ BaseType.normal →
      sq.currentEffectType = EffectType.none)
    (hbadb : s.currentStageConfig.minBadSquares
      ≤ s.currentStageConfig.maxBadSquares)
    (hdmb : s.currentStageConfig.minChoiceDiceMoneySquares
      ≤ s.currentStageConfig.maxChoiceDiceMoneySquares)
    (hpdb : s.currentStageConfig.minChoicePickDieSquares
      ≤ s.currentStageConfig.maxChoicePickDieSquares) :
    (∀ sq ∈ (setupLapEffects g k s).1.boardSquares,
      sq.baseType ≠ BaseType.normal → sq.currentEffectType = EffectType.none)
    ∧ ∃ nb ndm npd : ℕ,
      (s.currentStageConfig.minBadSquares ≤ nb
        ∧ nb ≤ s.currentStageConfig.maxBadSquares)
      ∧ (s.currentStageConfig.minChoiceDiceMoneySquares ≤ ndm
        ∧ ndm ≤ s.currentStageConfig.maxChoiceDiceMoneySquares)
      ∧ (s.currentStageConfig.minChoicePickDieSquares ≤ npd
        ∧ npd ≤ s.currentStageConfig.maxChoicePickDieSquares)
      ∧ effectCount (setupLapEffects g k s).1.boardSquares
            EffectType.temp_bad_lap
          = min nb (candidateSquareIds s).length
      ∧ effectCount (setupLapEffects g k s).1.boardSquares
            EffectType.choice_dice_money
          = min ndm ((candidateSquareIds s).length
              - min nb (candidateSquareIds s).length)
      ∧ effectCount (setupLapEffects g k s).1.boardSquares
            EffectType.choice_pick_die
          = min npd ((candidateSquareIds s).length
              - min nb (candidateSquareIds s).length
              - min ndm ((candidateSquareIds s).length
                  - min nb (candidateSquareIds s).length))
      ∧ effectCount (setupLapEffects g k s).1.boardSquares
            EffectType.temp_bad_lap
          + effectCount (setupLapEffects g k s).1.boardSquares
              EffectType.choice_dice_money
          + effectCount (setupLapEffects g k s).1.boardSquares
              EffectType.choice_pick_die
          + moneyCount (setupLapEffects g k s).1.boardSquares
          = (candidateSquareIds s).length := by
  have hperm : List.Perm (slShuffled g k s) (slCand s) :=
    shuffleArray_perm g hg k (slCand s)
  have hndC : (slCand s).Nodup := slCand_nodup s hids
  have hndSh : (slShuffled g k s).Nodup := hperm.nodup_iff.mpr hndC
  obtain ⟨hndBad, hndR1, hsubBad, hsubR1, hdisjBad, hlenBad, hlenR1⟩ :
      (slBadIds g k s).Nodup ∧ (slRem1 g k s).Nodup
      ∧ (∀ i ∈ slBadIds g k s, i ∈ slShuffled g k s)
      ∧ (∀ i ∈ slRem1 g k s, i ∈ slShuffled g k s)
      ∧ (∀ i ∈ slBadIds g k s, i ∉ slRem1 g k s)
      ∧ (slBadIds g k s).length = min (slNumBad g k s) (slShuffled g k s).length
      ∧ (slRem1 g k s).length = (slShuffled g k s).length - slNumBad g k s :=
    popN_split (slNumBad g k s) (slShuffled g k s) hndSh
  obtain ⟨hndDm, hndR2, hsubDm, hsubR2, hdisjDm, hlenDm, hlenR2⟩ :
      (slDmIds g k s).Nodup ∧ (slRem2 g k s).Nodup
      ∧ (∀ i ∈ slDmIds g k s, i ∈ slRem1 g k s)
      ∧ (∀ i ∈ slRem2 g k s, i ∈ slRem1 g k s)
      ∧ (∀ i ∈ slDmIds g k s, i ∉ slRem2 g k s)
      ∧ (slDmIds g k s).length = min (slNumDM g k s) (slRem1 g k s).length
      ∧ (slRem2 g k s).length = (slRem1 g k s).length - slNumDM g k s :=
    popN_split (slNumDM g k s) (slRem1 g k s) hndR1
  obtain ⟨hndPd, hndR3, hsubPd, hsubR3, hdisjPd, hlenPd, hlenR3⟩ :
      (slPdIds g k s).Nodup ∧ (slRem3 g k s).Nodup
      ∧ (∀ i ∈ slPdIds g k s, i ∈ slRem2 g k s)
      ∧ (∀ i ∈ slRem3 g k s, i ∈ slRem2 g k s)
      ∧ (∀ i ∈ slPdIds g k s, i ∉ slRem3 g k s)
      ∧ (slPdIds g k s).length = min (slNumPD g k s) (slRem2 g k s).length
      ∧ (slRem3 g k s).length = (slRem2 g k s).length - slNumPD g k s :=
    popN_split (slNumPD g k s) (slRem2 g k s) hndR2
  have hmemCand : ∀ i, (i ∈ slBadIds g k s ∨ i ∈ slDmIds g k s
      ∨ i ∈ slPdIds g k s ∨ i ∈ slRem3 g k s) → i ∈ slCand s := by
    intro i hi
    rcases hi with h | h | h | h
    · exact hperm.subset (hsubBad i h)
    · exact hperm.subset (hsubR1 i (hsubDm i h))
    · exact hperm.subset (hsubR1 i (hsubR2 i (hsubPd i h)))
    · exact hperm.subset (hsubR1 i (hsubR2 i (hsubR3 i h)))
  have hlen0 : (slBoard0 s).length = s.boardSquares.length := by
    simp [slBoard0]
  have hB0ids : (slBoard0 s).map Square.id
      = List.range ((slBoard0 s).length) := slBoard0_ids s hids
  have hltC : ∀ i ∈ slCand s, i < (slBoard0 s).length := by
    intro i hi
    rw [hlen0]
    exact slCand_lt s hids i hi
  have hnone := slBoard0_none s hclean
  have hlenSh : (slShuffled g k s).length = (candidateSquareIds s).length := by
    rw [hperm.length_eq, slCand_eq]
  have hk1 : (slBoard1 g k s).map sqKey = (slBoard0 s).map (fun sq =>
      (sq.id, sq.baseType,
        if sq.id ∈ slBadIds g k s then EffectType.temp_bad_lap
        else sq.currentEffectType)) :=
    assignBadSquares_key g s.playerStage (slBadIds g k s) (slK1 g k s + 1)
      (slBoard0 s)
  have hk2 : (slBoard2 g k s).map sqKey = (slBoard1 g k s).map (fun sq =>
      (sq.id, sq.baseType,
        if sq.id ∈ slDmIds g k s then EffectType.choice_dice_money
        else sq.currentEffectType)) :=
    assignEffect_key EffectType.choice_dice_money (slDmIds g k s)
      (slBoard1 g k s)
  have hk3 : (slBoard3 g k s).map sqKey = (slBoard2 g k s).map (fun sq =>
      (sq.id, sq.baseType,
        if sq.id ∈ slPdIds g k s then EffectType.choice_pick_die
        else sq.currentEffectType)) :=
    assignEffect_key EffectType.choice_pick_die (slPdIds g k s) (slBoard2 g k s)
  obtain ⟨eff, heffval, hk4⟩ := assignMoneySquares_key g
    (currentHugeMoneyValue s : ℤ) s.currentStageConfig.moneyMultiplier
    (slRem3 g k s) (slK2 g k s + 2) (slBoard3 g k s)
  have hk4' : (slBoard4 g k s).map sqKey = (slBoard3 g k s).map (fun sq =>
      (sq.id, sq.baseType,
        if sq.id ∈ slRem3 g k s then eff sq.id else sq.currentEffectType)) := hk4
  have h2chain : (slBoard2 g k s).map sqKey = (slBoard0 s).map (fun sq =>
      (sq.id, sq.baseType,
        if sq.id ∈ slDmIds g k s then EffectType.choice_dice_money
        else if sq.id ∈ slBadIds g k s then EffectType.temp_bad_lap
        else sq.currentEffectType)) := by
    rw [hk2]
    exact map_key_comp (slBoard0 s)
      (fun i t => if i ∈ slBadIds g k s then EffectType.temp_bad_lap else t)
      (slBoard1 g k s) hk1 (slDmIds g k s)
      (fun _ => EffectType.choice_dice_money)
  have h3chain : (slBoard3 g k s).map sqKey = (slBoard0 s).map (fun sq =>
      (sq.id, sq.baseType,
        if sq.id ∈ slPdIds g k s then EffectType.choice_pick_die
        else if sq.id ∈ slDmIds g k s then EffectType.choice_dice_money
        else if sq.id ∈ slBadIds g k s then EffectType.temp_bad_lap
        else sq.currentEffectType)) := by
    rw [hk3]
    exact map_key_comp (slBoard0 s)
      (fun i t => if i ∈ slDmIds g k s then EffectType.choice_dice_money
        else if i ∈ slBadIds g k s then EffectType.temp_bad_lap else t)
      (slBoard2 g k s) h2chain (slPdIds g k s)
      (fun _ => EffectType.choice_pick_die)
  have h4chain : (slBoard4 g k s).map sqKey = (slBoard0 s).map (fun sq =>
      (sq.id, sq.baseType,
        if sq.id ∈ slRem3 g k s then eff sq.id
        else if sq.id ∈ slPdIds g k s then EffectType.choice_pick_die
        else if sq.id ∈ slDmIds g k s then EffectType.choice_dice_money
        else if sq.id ∈ slBadIds g k s then EffectType.temp_bad_lap
        else sq.currentEffectType)) := by
    rw [hk4']
    exact map_key_comp (slBoard0 s)
      (fun i t => if i ∈ slPdIds g k s then EffectType.choice_pick_die
        else if i ∈ slDmIds g k s then EffectType.choice_dice_money
        else if i ∈ slBadIds g k s then EffectType.temp_bad_lap else t)
      (slBoard3 g k s) h3chain (slRem3 g k s) eff
  have hcBad : effectCount (slBoard4 g k s) EffectType.temp_bad_lap
      = (slBadIds g k s).length := by
    show (slBoard4 g k s).countP
        (fun sq => decide (sq.currentEffectType = EffectType.temp_bad_lap))
      = (slBadIds g k s).length
    have e1 : (slBoard4 g k s).countP
        (fun sq => decide (sq.currentEffectType = EffectType.temp_bad_lap))
        = ((slBoard4 g k s).map sqKey).countP
          (fun t => decide (t.2.2 = EffectType.temp_bad_lap)) :=
      (List.countP_map (fun t : ℕ × BaseType × EffectType =>
        decide (t.2.2 = EffectType.temp_bad_lap)) sqKey (slBoard4 g k s)).symm
    rw [e1, h4chain, List.countP_map]
    have e2 : (slBoard0 s).countP
        ((fun t => decide (t.2.2 = EffectType.temp_bad_lap)) ∘ (fun sq =>
          (sq.id, sq.baseType,
            if sq.id ∈ slRem3 g k s then eff sq.id
            else if sq.id ∈ slPdIds g k s then EffectType.choice_pick_die
            else if sq.id ∈ slDmIds g k s then EffectType.choice_dice_money
            else if sq.id ∈ slBadIds g k s then EffectType.temp_bad_lap
            else sq.currentEffectType)))
        = (slBoard0 s).countP (fun sq => decide (sq.id ∈ slBadIds g k s)) := by
      refine List.countP_congr ?_
      intro sq hsq
      show decide ((if sq.id ∈ slRem3 g k s then eff sq.id
          else if sq.id ∈ slPdIds g k s then EffectType.choice_pick_die
          else if sq.id ∈ slDmIds g k s then EffectType.choice_dice_money
          else if sq.id ∈ slBadIds g k s then EffectType.temp_bad_lap
          else sq.currentEffectType) = EffectType.temp_bad_lap) = true
        ↔ decide (sq.id ∈ slBadIds g k s) = true
      rw [decide_eq_true_eq, decide_eq_true_eq]
      by_cases h3 : sq.id ∈ slRem3 g k s
      · have hnb : sq.id ∉ slBadIds g k s := fun hb =>
          hdisjBad _ hb (hsubR2 _ (hsubR3 _ h3))
        rw [if_pos h3]
        rcases heffval sq.id with he | he
        · rw [he]
          simp [hnb]
        · rw [he]
          simp [hnb]
      · rw [if_neg h3]
        by_cases hp : sq.id ∈ slPdIds g k s
        · have hnb : sq.id ∉ slBadIds g k s := fun hb =>
            hdisjBad _ hb (hsubR2 _ (hsubPd _ hp))
          rw [if_pos hp]
          simp [hnb]
        · rw [if_neg hp]
          by_cases hd : sq.id ∈ slDmIds g k s
          · have hnb : sq.id ∉ slBadIds g k s := fun hb =>
              hdisjBad _ hb (hsubDm _ hd)
            rw [if_pos hd]
            simp [hnb]
          · rw [if_neg hd]
            by_cases hb : sq.id ∈ slBadIds g k s
            · rw [if_pos hb]
              simp [hb]
            · rw [if_neg hb, hnone sq hsq]
              simp [hb]
    rw [e2]
    exact countP_mem_ids (slBoard0 s) (slBadIds g k s) hB0ids hndBad
      (fun i hi => hltC i (hmemCand i (Or.inl hi)))
  have hcDm : effectCount (slBoard4 g k s) EffectType.choice_dice_money
      = (slDmIds g k s).length := by
    show (slBoard4 g k s).countP
        (fun sq => decide (sq.currentEffectType = EffectType.choice_dice_money))
      = (slDmIds g k s).length
    have e1 : (slBoard4 g k s).countP
        (fun sq => decide (sq.currentEffectType = EffectType.choice_dice_money))
        = ((slBoard4 g k s).map sqKey).countP
          (fun t => decide (t.2.2 = EffectType.choice_dice_money)) :=
      (List.countP_map (fun t : ℕ × BaseType × EffectType =>
        decide (t.2.2 = EffectType.choice_dice_money)) sqKey
        (slBoard4 g k s)).symm
    rw [e1, h4chain, List.countP_map]
    have e2 : (slBoard0 s).countP
        ((fun t => decide (t.2.2 = EffectType.choice_dice_money)) ∘ (fun sq =>
          (sq.id, sq.baseType,
            if sq.id ∈ slRem3 g k s then eff sq.id
            else if sq.id ∈ slPdIds g k s then EffectType.choice_pick_die
            else if sq.id ∈ slDmIds g k s then EffectType.choice_dice_money
            else if sq.id ∈ slBadIds g k s then EffectType.temp_bad_lap
            else sq.currentEffectType)))
        = (slBoard0 s).countP (fun sq => decide (sq.id ∈ slDmIds g k s)) := by
      refine List.countP_congr ?_
      intro sq hsq
      show decide ((if sq.id ∈ slRem3 g k s then eff sq.id
          else if sq.id ∈ slPdIds g k s then EffectType.choice_pick_die
          else if sq.id ∈ slDmIds g k s then EffectType.choice_dice_money
          else if sq.id ∈ slBadIds g k s then EffectType.temp_bad_lap
          else sq.currentEffectType) = EffectType.choice_dice_money) = true
        ↔ decide (sq.id ∈ slDmIds g k s) = true
      rw [decide_eq_true_eq, decide_eq_true_eq]
      by_cases h3 : sq.id ∈ slRem3 g k s
      · have hnd2 : sq.id ∉ slDmIds g k s := fun hd =>
          hdisjDm _ hd (hsubR3 _ h3)
        rw [if_pos h3]
        rcases heffval sq.id with he | he
        · rw [he]
          simp [hnd2]
        · rw [he]
          simp [hnd2]
      · rw [if_neg h3]
        by_cases hp : sq.id ∈ slPdIds g k s
        · have hnd2 : sq.id ∉ slDmIds g k s := fun hd =>
            hdisjDm _ hd (hsubPd _ hp)
          rw [if_pos hp]
          simp [hnd2]
        · rw [if_neg hp]
          by_cases hd : sq.id ∈ slDmIds g k s
          · rw [if_pos hd]
            simp [hd]
          · rw [if_neg hd]
            by_cases hb : sq.id ∈ slBadIds g k s
            · rw [if_pos hb]
              simp [hd]
            · rw [if_neg hb, hnone sq hsq]
              simp [hd]
    rw [e2]
    exact countP_mem_ids (slBoard0 s) (slDmIds g k s) hB0ids hndDm
      (fun i hi => hltC i (hmemCand i (Or.inr (Or.inl hi))))
  have hcPd : effectCount (slBoard4 g k s) EffectType.choice_pick_die
      = (slPdIds g k s).length := by
    show (slBoard4 g k s).countP
        (fun sq => decide (sq.currentEffectType = EffectType.choice_pick_die))
      = (slPdIds g k s).length
    have e1 : (slBoard4 g k s).countP
        (fun sq => decide (sq.currentEffectType = EffectType.choice_pick_die))
        = ((slBoard4 g k s).map sqKey).countP
          (fun t => decide (t.2.2 = EffectType.choice_pick_die)) :=
      (List.countP_map (fun t : ℕ × BaseType × EffectType =>
        decide (t.2.2 = EffectType.choice_pick_die)) sqKey
        (slBoard4 g k s)).symm
    rw [e1, h4chain, List.countP_map]
    have e2 : (slBoard0 s).countP
        ((fun t => decide (t.2.2 = EffectType.choice_pick_die)) ∘ (fun sq =>
          (sq.id, sq.baseType,
            if sq.id ∈ slRem3 g k s then eff sq.id
            else if sq.id ∈ slPdIds g k s then EffectType.choice_pick_die
            else if sq.id ∈ slDmIds g k s then EffectType.choice_dice_money
            else if sq.id ∈ slBadIds g k s then EffectType.temp_bad_lap
            else sq.currentEffectType)))
        = (slBoard0 s).countP (fun sq => decide (sq.id ∈ slPdIds g k s)) := by
      refine List.countP_congr ?_
      intro sq hsq
      show decide ((if sq.id ∈ slRem3 g k s then eff sq.id
          else if sq.id ∈ slPdIds g k s then EffectType.choice_pick_die
          else if sq.id ∈ slDmIds g k s then EffectType.choice_dice_money
          else if sq.id ∈ slBadIds g k s then EffectType.temp_bad_lap
          else sq.currentEffectType) = EffectType.choice_pick_die) = true
        ↔ decide (sq.id ∈ slPdIds g k s) = true
      rw [decide_eq_true_eq, decide_eq_true_eq]
      by_cases h3 : sq.id ∈ slRem3 g k s
      · have hnp : sq.id ∉ slPdIds g k s := fun hp => hdisjPd _ hp h3
        rw [if_pos h3]
        rcases heffval sq.id with he | he
        · rw [he]
          simp [hnp]
        · rw [he]
          simp [hnp]
      · rw [if_neg h3]
        by_cases hp : sq.id ∈ slPdIds g k s
        · rw [if_pos hp]
          simp [hp]
        · rw [if_neg hp]
          by_cases hd : sq.id ∈ slDmIds g k s
          · rw [if_pos hd]
            simp [hp]
          · rw [if_neg hd]
            by_cases hb : sq.id ∈ slBadIds g k s
            · rw [if_pos hb]
              simp [hp]
            · rw [if_neg hb, hnone sq hsq]
              simp [hp]
    rw [e2]
    exact countP_mem_ids (slBoard0 s) (slPdIds g k s) hB0ids hndPd
      (fun i hi => hltC i (hmemCand i (Or.inr (Or.inr (Or.inl hi)))))
  have hcMoney : moneyCount (slBoard4 g k s) = (slRem3 g k s).length := by
    show (slBoard4 g k s).countP
        (fun sq => decide (sq.currentEffectType = EffectType.huge_money
          ∨ sq.currentEffectType = EffectType.normal_money))
      = (slRem3 g k s).length
    have e1 : (slBoard4 g k s).countP
        (fun sq => decide (sq.currentEffectType = EffectType.huge_money
          ∨ sq.currentEffectType = EffectType.normal_money))
        = ((slBoard4 g k s).map sqKey).countP
          (fun t => decide (t.2.2 = EffectType.huge_money
            ∨ t.2.2 = EffectType.normal_money)) :=
      (List.countP_map (fun t : ℕ × BaseType × EffectType =>
        decide (t.2.2 = EffectType.huge_money
          ∨ t.2.2 = EffectType.normal_money)) sqKey (slBoard4 g k s)).symm
    rw [e1, h4chain, List.countP_map]
    have e2 : (slBoard0 s).countP
        ((fun t => decide (t.2.2 = EffectType.huge_money
          ∨ t.2.2 = EffectType.normal_money)) ∘ (fun sq =>
          (sq.id, sq.baseType,
            if sq.id ∈ slRem3 g k s then eff sq.id
            else if sq.id ∈ slPdIds g k s then EffectType.choice_pick_die
            else if sq.id ∈ slDmIds g k s then EffectType.choice_dice_money
            else if sq.id ∈ slBadIds g k s then EffectType.temp_bad_lap
            else sq.currentEffectType)))
        = (slBoard0 s).countP (fun sq => decide (sq.id ∈ slRem3 g k s)) := by
      refine List.countP_congr ?_
      intro sq hsq
      show decide ((if sq.id ∈ slRem3 g k s then eff sq.id
          else if sq.id ∈ slPdIds g k s then EffectType.choice_pick_die
          else if sq.id ∈ slDmIds g k s then EffectType.choice_dice_money
          else if sq.id ∈ slBadIds g k s then EffectType.temp_bad_lap
          else sq.currentEffectType) = EffectType.huge_money
          ∨ (if sq.id ∈ slRem3 g k s then eff sq.id
          else if sq.id ∈ slPdIds g k s then EffectType.choice_pick_die
          else if sq.id ∈ slDmIds g k s then EffectType.choice_dice_money
          else if sq.id ∈ slBadIds g k s then EffectType.temp_bad_lap
          else sq.currentEffectType) = EffectType.normal_money) = true
        ↔ decide (sq.id ∈ slRem3 g k s) = true
      rw [decide_eq_true_eq, decide_eq_true_eq]
      by_cases h3 : sq.id ∈ slRem3 g k s
      · rw [if_pos h3]
        rcases heffval sq.id with he | he
        · rw [he]
          simp [h3]
        · rw [he]
          simp [h3]
      · rw [if_neg h3]
        by_cases hp : sq.id ∈ slPdIds g k s
        · rw [if_pos hp]
          simp [h3]
        · rw [if_neg hp]
          by_cases hd : sq.id ∈ slDmIds g k s
          · rw [if_pos hd]
            simp [h3]
          · rw [if_neg hd]
            by_cases hb : sq.id ∈ slBadIds g k s
            · rw [if_pos hb]
              simp [h3]
            · rw [if_neg hb, hnone sq hsq]
              simp [h3]
    rw [e2]
    exact countP_mem_ids (slBoard0 s) (slRem3 g k s) hB0ids hndR3
      (fun i hi => hltC i (hmemCand i (Or.inr (Or.inr (Or.inr hi)))))
  refine ⟨?_, slNumBad g k s, slNumDM g k s, slNumPD g k s,
    ⟨le_getRandomInt _ _ _, getRandomInt_le (hg _) hbadb⟩,
    ⟨le_getRandomInt _ _ _, getRandomInt_le (hg _) hdmb⟩,
    ⟨le_getRandomInt _ _ _, getRandomInt_le (hg _) hpdb⟩, ?_, ?_, ?_, ?_⟩
  · intro sq1 hsq1 hnt
    rw [setupLapEffects_board] at hsq1
    have hmem : sqKey sq1 ∈ (slBoard4 g k s).map sqKey :=
      List.mem_map_of_mem sqKey hsq1
    rw [h4chain, List.mem_map] at hmem
    obtain ⟨sq0, hsq0, heqk⟩ := hmem
    have hid : sq0.id = sq1.id := congrArg Prod.fst heqk
    have hbt : sq0.baseType = sq1.baseType :=
      congrArg (fun t => t.2.1) heqk
    have heff : (if sq0.id ∈ slRem3 g k s then eff sq0.id
        else if sq0.id ∈ slPdIds g k s then EffectType.choice_pick_die
        else if sq0.id ∈ slDmIds g k s then EffectType.choice_dice_money
        else if sq0.id ∈ slBadIds g k s then EffectType.temp_bad_lap
        else sq0.currentEffectType) = sq1.currentEffectType :=
      congrArg (fun t => t.2.2) heqk
    have hnotc : sq0.id ∉ slCand s := by
      intro hmemc
      obtain ⟨sqN, hsqN, hidN, hbtN⟩ := slCand_normal s sq0.id hmemc
      have heqs : sq0 = sqN := slBoard0_id_inj s hids sq0 hsq0 sqN hsqN
        hidN.symm
      have hb0 : sq0.baseType = BaseType.normal := by
        rw [heqs]
        exact hbtN
      apply hnt
      rw [← hbt]
      exact hb0
    rw [← heff,
      if_neg (fun h => hnotc (hmemCand _ (Or.inr (Or.inr (Or.inr h))))),
      if_neg (fun h => hnotc (hmemCand _ (Or.inr (Or.inr (Or.inl h))))),
      if_neg (fun h => hnotc (hmemCand _ (Or.inr (Or.inl h)))),
      if_neg (fun h => hnotc (hmemCand _ (Or.inl h)))]
    exact hnone sq0 hsq0
  · rw [setupLapEffects_board, hcBad, hlenBad, hlenSh]
  · rw [setupLapEffects_board, hcDm, hlenDm, hlenR1, hlenSh]
    omega
  · rw [setupLapEffects_board, hcPd, hlenPd, hlenR2, hlenR1, hlenSh]
    omega
  · rw [setupLapEffects_board, hcBad, hcDm, hcPd, hcMoney, hlenBad, hlenDm,
      hlenPd, hlenR3, hlenR2, hlenR1, hlenSh]
    omega

/-- Witness for C9: on the freshly generated test board the four effect
categories classify the candidate pool exactly once. -/
theorem C9_lap_effect_assignment_witness :
    effectCount (setupLapEffects zeroRng 0
        (generateBoardLayout testState)).1.boardSquares EffectType.temp_bad_lap
      + effectCount (setupLapEffects zeroRng 0
          (generateBoardLayout testState)).1.boardSquares
          EffectType.choice_dice_money
      + effectCount (setupLapEffects zeroRng 0
          (generateBoardLayout testState)).1.boardSquares
          EffectType.choice_pick_die
      + moneyCount (setupLapEffects zeroRng 0
          (generateBoardLayout testState)).1.boardSquares
      = (candidateSquareIds (generateBoardLayout testState)).length := by
  obtain ⟨-, nb, ndm, npd, h⟩ := C9_lap_effect_assignment zeroRng zeroRng_valid
    0 (generateBoardLayout testState) (by decide) (by decide) (by decide)
    (by decide) (by decide)
  exact h.2.2.2.2.2.2

end DiceOrDie
